import Mathlib

/-!
# sm-mock: the Service Manager mock of nginx-rate-limit-poc

A shallow embedding of `sm-mock/main.go`: the four resource shapes, the two
response helpers, the sixteen resource handlers, the health handler and the
route table registered in `main`.

What lies outside `main.go` enters as follows.

* `uuid.New().String()` and `time.Now()` read an explicit environment `Env`:
  the n-th call returns the n-th token, respectively the n-th clock reading
  (the random source behind `uuid.New` is taken not to fail).
* `json.NewDecoder(r.Body).Decode(&v)` is the decoder of `encoding/json`; it is
  a field of `Env`, one per target shape, returning the decoded value or the
  error text. The section on the input side of `encoding/json` models that
  decoder on the text of the body, and `Env.DecodesJSON` says of an
  environment that its decoders are the modelled ones.
* `json.Marshal` is modelled on the Go values `main.go` hands to it, producing
  a JSON document tree whose object keys are the struct tags of `main.go`.
* `http.ResponseWriter` is the log of the calls a handler made on it; status
  and body are read off the log the way `net/http` does.
* `mux.Router` matches a request against the registered routes in order,
  after the clean-path redirect that `mux` performs by default.
-/

namespace SmMock

/-! ## Resource model -/

/-- A `time.Time`, counted in nanoseconds from the zero time. The instants
that occur are clock readings and decoded RFC 3339 timestamps, whose year
lies in 0..9999, the range `Time.MarshalJSON` accepts. -/
structure Time where
  nanos : Nat
  deriving DecidableEq, Repr

structure ServiceBinding where
  ID : String
  InstanceID : String
  ServiceID : String
  PlanID : String
  CreatedAt : Time
  deriving DecidableEq, Repr

structure ServiceOffering where
  ID : String
  Name : String
  Description : String
  CreatedAt : Time
  UpdatedAt : Time
  deriving DecidableEq, Repr

structure ServicePlan where
  ID : String
  Name : String
  Description : String
  Free : Bool
  CreatedAt : Time
  UpdatedAt : Time
  deriving DecidableEq, Repr

structure ServiceInstance where
  ID : String
  Name : String
  ServiceID : String
  PlanID : String
  CreatedAt : Time
  UpdatedAt : Time
  deriving DecidableEq, Repr

/-- Error Response structure. -/
structure ErrorResponse where
  Error : String
  Description : String
  deriving DecidableEq, Repr

/-- The Go values that reach a `payload interface{}` or the `Items interface{}`
field: the four records, slices of them, `APIResponse` (its two fields are the
constructor arguments), `ErrorResponse`, and `chan`, a channel value of the
named type, standing for the values `encoding/json` has no encoding for. -/
inductive Value where
  | binding (v : ServiceBinding)
  | offering (v : ServiceOffering)
  | plan (v : ServicePlan)
  | inst (v : ServiceInstance)
  | bindings (vs : List ServiceBinding)
  | offerings (vs : List ServiceOffering)
  | plans (vs : List ServicePlan)
  | instances (vs : List ServiceInstance)
  | apiResponse (Items : Value) (TotalItems : Int)
  | errorResponse (v : ErrorResponse)
  | chan (goType : String)
  deriving Repr

/-! ## encoding/json, output side -/

/-- A JSON document. `time t` is the JSON string holding the RFC 3339 text of
the instant `t`. -/
inductive Json where
  | null
  | bool (b : Bool)
  | num (n : Int)
  | str (s : String)
  | time (t : Time)
  | arr (items : List Json)
  | obj (fields : List (String × Json))
  deriving Repr

/-- The value stored under `key` in a JSON object. -/
def Json.field (key : String) : Json → Option Json
  | .obj fields => fields.lookup key
  | _ => none

/-- The elements of a JSON array. -/
def Json.elems : Json → Option (List Json)
  | .arr items => some items
  | _ => none

def ServiceBinding.toJson (v : ServiceBinding) : Json :=
  .obj [("id", .str v.ID), ("instance_id", .str v.InstanceID), ("service_id", .str v.ServiceID),
    ("plan_id", .str v.PlanID), ("created_at", .time v.CreatedAt)]

def ServiceOffering.toJson (v : ServiceOffering) : Json :=
  .obj [("id", .str v.ID), ("name", .str v.Name), ("description", .str v.Description),
    ("created_at", .time v.CreatedAt), ("updated_at", .time v.UpdatedAt)]

def ServicePlan.toJson (v : ServicePlan) : Json :=
  .obj [("id", .str v.ID), ("name", .str v.Name), ("description", .str v.Description),
    ("free", .bool v.Free), ("created_at", .time v.CreatedAt), ("updated_at", .time v.UpdatedAt)]

def ServiceInstance.toJson (v : ServiceInstance) : Json :=
  .obj [("id", .str v.ID), ("name", .str v.Name), ("service_id", .str v.ServiceID),
    ("plan_id", .str v.PlanID), ("created_at", .time v.CreatedAt), ("updated_at", .time v.UpdatedAt)]

def ErrorResponse.toJson (v : ErrorResponse) : Json :=
  .obj [("error", .str v.Error), ("description", .str v.Description)]

/-- The result of `json.Marshal`: struct fields in declaration order under
their tags; a channel is refused with `UnsupportedTypeError`. -/
def jsonMarshal : Value → Except String Json
  | .binding v => .ok v.toJson
  | .offering v => .ok v.toJson
  | .plan v => .ok v.toJson
  | .inst v => .ok v.toJson
  | .bindings vs => .ok (.arr (vs.map ServiceBinding.toJson))
  | .offerings vs => .ok (.arr (vs.map ServiceOffering.toJson))
  | .plans vs => .ok (.arr (vs.map ServicePlan.toJson))
  | .instances vs => .ok (.arr (vs.map ServiceInstance.toJson))
  | .apiResponse items total =>
    match jsonMarshal items with
    | .error err => .error err
    | .ok j => .ok (.obj [("items", j), ("total_items", .num total)])
  | .errorResponse v => .ok v.toJson
  | .chan goType => .error ("json: unsupported type: " ++ goType)

/-! ## net/http -/

def http.StatusOK : Nat := 200
def http.StatusCreated : Nat := 201
def http.StatusNoContent : Nat := 204
def http.StatusBadRequest : Nat := 400
def http.StatusInternalServerError : Nat := 500

/-- Bytes passed to `w.Write`: literal text, or the encoding of a JSON document. -/
inductive Bytes where
  | text (s : String)
  | json (doc : Json)
  deriving Repr

/-- One call on an `http.ResponseWriter`. -/
inductive Call where
  | headerSet (key value : String)
  | writeHeader (code : Nat)
  | write (b : Bytes)
  deriving Repr

/-- An `http.ResponseWriter`, as the calls made on it so far, oldest first. -/
structure ResponseWriter where
  calls : List Call
  deriving Repr

/-- The writer a handler is started with. -/
def ResponseWriter.fresh : ResponseWriter := ⟨[]⟩

def ResponseWriter.HeaderSet (w : ResponseWriter) (key value : String) : ResponseWriter :=
  ⟨w.calls ++ [.headerSet key value]⟩

def ResponseWriter.WriteHeader (w : ResponseWriter) (code : Nat) : ResponseWriter :=
  ⟨w.calls ++ [.writeHeader code]⟩

def ResponseWriter.Write (w : ResponseWriter) (b : Bytes) : ResponseWriter :=
  ⟨w.calls ++ [.write b]⟩

/-- The codes passed to `WriteHeader`, in call order. -/
def ResponseWriter.statusLines (w : ResponseWriter) : List Nat :=
  w.calls.filterMap fun c => match c with
    | .writeHeader code => some code
    | _ => none

/-- The status of the response: the first `WriteHeader` counts, and a `Write`
that comes before any `WriteHeader` sends 200. -/
def ResponseWriter.status (w : ResponseWriter) : Option Nat :=
  w.calls.findSome? fun c => match c with
    | .writeHeader code => some code
    | .write _ => some http.StatusOK
    | .headerSet _ _ => none

/-- The body of the response: what was passed to `Write`, in call order. -/
def ResponseWriter.body (w : ResponseWriter) : List Bytes :=
  w.calls.filterMap fun c => match c with
    | .write b => some b
    | _ => none

/-! ## Helper functions -/

mutual

/-- The helper `respondWithJSON`. It calls `respondWithError` only when the
payload fails to marshal, and `respondWithError` calls back with an
`ErrorResponse`, which marshals: the measure is 2 for a payload that fails to
marshal, 1 for `respondWithError` and 0 for a payload that marshals. -/
def respondWithJSON (w : ResponseWriter) (code : Nat) (payload : Value) : ResponseWriter :=
  match hm : jsonMarshal payload with
  | .error err => respondWithError w http.StatusInternalServerError "Internal Server Error" err
  | .ok response => ((w.HeaderSet "Content-Type" "application/json").WriteHeader code).Write (.json response)
termination_by (match jsonMarshal payload with
  | .error _ => 2
  | .ok _ => 0)
decreasing_by
  rw [hm]
  exact Nat.lt_succ_self 1

/-- The helper `respondWithError`. -/
def respondWithError (w : ResponseWriter) (code : Nat) (message : String) (description : String) :
    ResponseWriter :=
  respondWithJSON w code (.errorResponse { Error := message, Description := description })
termination_by 1
decreasing_by
  simp [jsonMarshal]

end

/-! ## The environment and the request -/

/-- What the handlers read from outside `main.go`: the tokens that successive
calls of `uuid.New().String()` return and how many were drawn, the readings
that successive calls of `time.Now()` return and how many were taken, and what
`json.NewDecoder(body).Decode(&v)` returns for `v` of each of the four shapes
(the decoded value, or the text of the error). -/
structure Env where
  uuids : Nat → String
  drawn : Nat
  clock : Nat → Time
  ticks : Nat
  decodeBinding : String → Except String ServiceBinding
  decodeOffering : String → Except String ServiceOffering
  decodePlan : String → Except String ServicePlan
  decodeInstance : String → Except String ServiceInstance

/-- The call `uuid.New().String()`. -/
def uuidNewString (env : Env) : String × Env :=
  (env.uuids env.drawn, { env with drawn := env.drawn + 1 })

/-- The call `time.Now()`. -/
def timeNow (env : Env) : Time × Env :=
  (env.clock env.ticks, { env with ticks := env.ticks + 1 })

/-- An `http.Request`: method, `URL.Path`, the bytes of the body, and the
route variables the router attached. -/
structure Request where
  Method : String
  Path : String
  Body : String
  Vars : List (String × String)
  deriving DecidableEq, Repr

/-- The lookup `mux.Vars(r)[key]`: a missing key reads as the empty string. -/
def muxVars (r : Request) (key : String) : String :=
  (r.Vars.lookup key).getD ""

/-! ## Service Bindings Handlers -/

def getServiceBindings (w : ResponseWriter) (_r : Request) (env : Env) : ResponseWriter × Env :=
  let (id, env) := uuidNewString env
  let (instanceID, env) := uuidNewString env
  let (serviceID, env) := uuidNewString env
  let (planID, env) := uuidNewString env
  let (createdAt, env) := timeNow env
  let bindings : List ServiceBinding :=
    [{ ID := id, InstanceID := instanceID, ServiceID := serviceID, PlanID := planID,
       CreatedAt := createdAt }]
  let response := Value.apiResponse (.bindings bindings) bindings.length
  (respondWithJSON w http.StatusOK response, env)

def createServiceBinding (w : ResponseWriter) (r : Request) (env : Env) : ResponseWriter × Env :=
  match env.decodeBinding r.Body with
  | .error err => (respondWithError w http.StatusBadRequest "Invalid request payload" err, env)
  | .ok binding =>
    let (id, env) := uuidNewString env
    let binding := { binding with ID := id }
    let (now, env) := timeNow env
    let binding := { binding with CreatedAt := now }
    (respondWithJSON w http.StatusCreated (.binding binding), env)

def getServiceBinding (w : ResponseWriter) (r : Request) (env : Env) : ResponseWriter × Env :=
  let id := muxVars r "id"
  let (instanceID, env) := uuidNewString env
  let (serviceID, env) := uuidNewString env
  let (planID, env) := uuidNewString env
  let (createdAt, env) := timeNow env
  let binding : ServiceBinding :=
    { ID := id, InstanceID := instanceID, ServiceID := serviceID, PlanID := planID,
      CreatedAt := createdAt }
  (respondWithJSON w http.StatusOK (.binding binding), env)

def deleteServiceBinding (w : ResponseWriter) (_r : Request) (env : Env) : ResponseWriter × Env :=
  (w.WriteHeader http.StatusNoContent, env)

/-! ## Service Offerings Handlers -/

def getServiceOfferings (w : ResponseWriter) (_r : Request) (env : Env) : ResponseWriter × Env :=
  let (id, env) := uuidNewString env
  let (createdAt, env) := timeNow env
  let (updatedAt, env) := timeNow env
  let offerings : List ServiceOffering :=
    [{ ID := id, Name := "sample-service", Description := "A sample service offering",
       CreatedAt := createdAt, UpdatedAt := updatedAt }]
  let response := Value.apiResponse (.offerings offerings) offerings.length
  (respondWithJSON w http.StatusOK response, env)

def createServiceOffering (w : ResponseWriter) (r : Request) (env : Env) : ResponseWriter × Env :=
  match env.decodeOffering r.Body with
  | .error err => (respondWithError w http.StatusBadRequest "Invalid request payload" err, env)
  | .ok offering =>
    let (id, env) := uuidNewString env
    let offering := { offering with ID := id }
    let (now, env) := timeNow env
    let offering := { offering with CreatedAt := now }
    let (now, env) := timeNow env
    let offering := { offering with UpdatedAt := now }
    (respondWithJSON w http.StatusCreated (.offering offering), env)

def getServiceOffering (w : ResponseWriter) (r : Request) (env : Env) : ResponseWriter × Env :=
  let id := muxVars r "id"
  let (createdAt, env) := timeNow env
  let (updatedAt, env) := timeNow env
  let offering : ServiceOffering :=
    { ID := id, Name := "sample-service", Description := "A sample service offering",
      CreatedAt := createdAt, UpdatedAt := updatedAt }
  (respondWithJSON w http.StatusOK (.offering offering), env)

def deleteServiceOffering (w : ResponseWriter) (_r : Request) (env : Env) : ResponseWriter × Env :=
  (w.WriteHeader http.StatusNoContent, env)

/-! ## Service Plans Handlers -/

def getServicePlans (w : ResponseWriter) (_r : Request) (env : Env) : ResponseWriter × Env :=
  let (id, env) := uuidNewString env
  let (createdAt, env) := timeNow env
  let (updatedAt, env) := timeNow env
  let plans : List ServicePlan :=
    [{ ID := id, Name := "basic-plan", Description := "Basic service plan", Free := true,
       CreatedAt := createdAt, UpdatedAt := updatedAt }]
  let response := Value.apiResponse (.plans plans) plans.length
  (respondWithJSON w http.StatusOK response, env)

def createServicePlan (w : ResponseWriter) (r : Request) (env : Env) : ResponseWriter × Env :=
  match env.decodePlan r.Body with
  | .error err => (respondWithError w http.StatusBadRequest "Invalid request payload" err, env)
  | .ok plan =>
    let (id, env) := uuidNewString env
    let plan := { plan with ID := id }
    let (now, env) := timeNow env
    let plan := { plan with CreatedAt := now }
    let (now, env) := timeNow env
    let plan := { plan with UpdatedAt := now }
    (respondWithJSON w http.StatusCreated (.plan plan), env)

def getServicePlan (w : ResponseWriter) (r : Request) (env : Env) : ResponseWriter × Env :=
  let id := muxVars r "id"
  let (createdAt, env) := timeNow env
  let (updatedAt, env) := timeNow env
  let plan : ServicePlan :=
    { ID := id, Name := "basic-plan", Description := "Basic service plan", Free := true,
      CreatedAt := createdAt, UpdatedAt := updatedAt }
  (respondWithJSON w http.StatusOK (.plan plan), env)

def deleteServicePlan (w : ResponseWriter) (_r : Request) (env : Env) : ResponseWriter × Env :=
  (w.WriteHeader http.StatusNoContent, env)

/-! ## Service Instances Handlers -/

def getServiceInstances (w : ResponseWriter) (_r : Request) (env : Env) : ResponseWriter × Env :=
  let (id, env) := uuidNewString env
  let (serviceID, env) := uuidNewString env
  let (planID, env) := uuidNewString env
  let (createdAt, env) := timeNow env
  let (updatedAt, env) := timeNow env
  let instances : List ServiceInstance :=
    [{ ID := id, Name := "test-instance", ServiceID := serviceID, PlanID := planID,
       CreatedAt := createdAt, UpdatedAt := updatedAt }]
  let response := Value.apiResponse (.instances instances) instances.length
  (respondWithJSON w http.StatusOK response, env)

def createServiceInstance (w : ResponseWriter) (r : Request) (env : Env) : ResponseWriter × Env :=
  match env.decodeInstance r.Body with
  | .error err => (respondWithError w http.StatusBadRequest "Invalid request payload" err, env)
  | .ok inst =>
    let (id, env) := uuidNewString env
    let inst := { inst with ID := id }
    let (now, env) := timeNow env
    let inst := { inst with CreatedAt := now }
    let (now, env) := timeNow env
    let inst := { inst with UpdatedAt := now }
    (respondWithJSON w http.StatusCreated (.inst inst), env)

def getServiceInstance (w : ResponseWriter) (r : Request) (env : Env) : ResponseWriter × Env :=
  let id := muxVars r "id"
  let (serviceID, env) := uuidNewString env
  let (planID, env) := uuidNewString env
  let (createdAt, env) := timeNow env
  let (updatedAt, env) := timeNow env
  let inst : ServiceInstance :=
    { ID := id, Name := "test-instance", ServiceID := serviceID, PlanID := planID,
      CreatedAt := createdAt, UpdatedAt := updatedAt }
  (respondWithJSON w http.StatusOK (.inst inst), env)

def deleteServiceInstance (w : ResponseWriter) (_r : Request) (env : Env) : ResponseWriter × Env :=
  (w.WriteHeader http.StatusNoContent, env)

/-- The health endpoint, an anonymous function in `main`. -/
def health (w : ResponseWriter) (_r : Request) (env : Env) : ResponseWriter × Env :=
  ((w.WriteHeader http.StatusOK).Write (.text "OK"), env)

/-! ## The router -/

/-- The functions registered as handlers in `main`. -/
inductive Handler where
  | getServiceBindings | createServiceBinding | getServiceBinding | deleteServiceBinding
  | getServiceOfferings | createServiceOffering | getServiceOffering | deleteServiceOffering
  | getServicePlans | createServicePlan | getServicePlan | deleteServicePlan
  | getServiceInstances | createServiceInstance | getServiceInstance | deleteServiceInstance
  | health
  deriving DecidableEq, Repr

/-- The function a handler name stands for. -/
def Handler.run : Handler → ResponseWriter → Request → Env → ResponseWriter × Env
  | .getServiceBindings => SmMock.getServiceBindings
  | .createServiceBinding => SmMock.createServiceBinding
  | .getServiceBinding => SmMock.getServiceBinding
  | .deleteServiceBinding => SmMock.deleteServiceBinding
  | .getServiceOfferings => SmMock.getServiceOfferings
  | .createServiceOffering => SmMock.createServiceOffering
  | .getServiceOffering => SmMock.getServiceOffering
  | .deleteServiceOffering => SmMock.deleteServiceOffering
  | .getServicePlans => SmMock.getServicePlans
  | .createServicePlan => SmMock.createServicePlan
  | .getServicePlan => SmMock.getServicePlan
  | .deleteServicePlan => SmMock.deleteServicePlan
  | .getServiceInstances => SmMock.getServiceInstances
  | .createServiceInstance => SmMock.createServiceInstance
  | .getServiceInstance => SmMock.getServiceInstance
  | .deleteServiceInstance => SmMock.deleteServiceInstance
  | .health => SmMock.health

/-- A path template of the shapes `main` registers: a literal, optionally
followed by one variable at the end, as in `/v1/service_plans/{id}`. -/
structure Template where
  literal : String
  param : Option String
  deriving DecidableEq, Repr

/-- The match of a path against a template. `mux` compiles the template to a
regular expression anchored at both ends, the literal standing for itself and
the variable for `[^/]+`; the variable is bound to the text it matched. -/
def Template.matchPath (t : Template) (path : String) : Option (List (String × String)) :=
  match t.param with
  | none => if path.data = t.literal.data then some [] else none
  | some name =>
    if t.literal.data.isPrefixOf path.data then
      let value := path.data.drop t.literal.data.length
      if value ≠ [] ∧ '/' ∉ value then some [(name, String.mk value)] else none
    else none

/-- A route: `r.HandleFunc(template, handler).Methods(method)`. -/
structure Route where
  template : Template
  handler : Handler
  method : String
  deriving DecidableEq, Repr

/-- The routes registered in `main`, in registration order. -/
def routes : List Route :=
  [ ⟨⟨"/v1/service_bindings", none⟩, .getServiceBindings, "GET"⟩,
    ⟨⟨"/v1/service_bindings", none⟩, .createServiceBinding, "POST"⟩,
    ⟨⟨"/v1/service_bindings/", some "id"⟩, .getServiceBinding, "GET"⟩,
    ⟨⟨"/v1/service_bindings/", some "id"⟩, .deleteServiceBinding, "DELETE"⟩,
    ⟨⟨"/v1/service_offerings", none⟩, .getServiceOfferings, "GET"⟩,
    ⟨⟨"/v1/service_offerings", none⟩, .createServiceOffering, "POST"⟩,
    ⟨⟨"/v1/service_offerings/", some "id"⟩, .getServiceOffering, "GET"⟩,
    ⟨⟨"/v1/service_offerings/", some "id"⟩, .deleteServiceOffering, "DELETE"⟩,
    ⟨⟨"/v1/service_plans", none⟩, .getServicePlans, "GET"⟩,
    ⟨⟨"/v1/service_plans", none⟩, .createServicePlan, "POST"⟩,
    ⟨⟨"/v1/service_plans/", some "id"⟩, .getServicePlan, "GET"⟩,
    ⟨⟨"/v1/service_plans/", some "id"⟩, .deleteServicePlan, "DELETE"⟩,
    ⟨⟨"/v1/service_instances", none⟩, .getServiceInstances, "GET"⟩,
    ⟨⟨"/v1/service_instances", none⟩, .createServiceInstance, "POST"⟩,
    ⟨⟨"/v1/service_instances/", some "id"⟩, .getServiceInstance, "GET"⟩,
    ⟨⟨"/v1/service_instances/", some "id"⟩, .deleteServiceInstance, "DELETE"⟩,
    ⟨⟨"/health", none⟩, .health, "GET"⟩ ]

/-- The test `Route.Match`: the path matches the template and the method is the
registered one; the result is the route variables. -/
def Route.Match (rt : Route) (r : Request) : Option (List (String × String)) :=
  match rt.template.matchPath r.Path with
  | none => none
  | some vars => if r.Method = rt.method then some vars else none

/-- The search `Router.Match`: the first route, in registration order, that
matches, with its variables. -/
def routerMatch (rs : List Route) (r : Request) : Option (Handler × List (String × String)) :=
  rs.findSome? fun rt => (rt.Match r).map fun vars => (rt.handler, vars)

/-- The elements of a path, split at each slash. -/
def splitSlash : List Char → List (List Char)
  | [] => [[]]
  | c :: cs =>
    if c = '/' then [] :: splitSlash cs
    else match splitSlash cs with
      | [] => [[c]]
      | e :: es => (c :: e) :: es

/-- The pass of `path.Clean` over the elements of a rooted path: empty and `.`
elements are dropped, `..` removes the element before it if there is one.
`out` holds the elements kept so far, last first. -/
def cleanElems : List (List Char) → List (List Char) → List (List Char)
  | out, [] => out.reverse
  | out, e :: es =>
    if e = [] ∨ e = ['.'] then cleanElems out es
    else if e = ['.', '.'] then cleanElems out.tail es
    else cleanElems (e :: out) es

/-- Elements joined by single slashes. -/
def joinSlash : List (List Char) → List Char
  | [] => []
  | [e] => e
  | e :: es => e ++ '/' :: joinSlash es

/-- The function `path.Clean` on a rooted path. -/
def pathClean (p : List Char) : List Char :=
  '/' :: joinSlash (cleanElems [] (splitSlash p))

/-- The function `cleanPath` of `mux`: the path is rooted, cleaned, and a
trailing slash is put back. -/
def cleanPath (p : List Char) : List Char :=
  if p = [] then ['/']
  else
    let p := if p.head? ≠ some '/' then '/' :: p else p
    let np := pathClean p
    if p.getLast? = some '/' ∧ np ≠ ['/'] then np ++ ['/'] else np

/-- What `Router.ServeHTTP` does with a request. -/
inductive Dispatch where
  | redirect (path : String)
  | handler (h : Handler) (vars : List (String × String))
  | noMatch
  deriving DecidableEq, Repr

/-- The decision of `Router.ServeHTTP`: a path that is not clean is answered
with a redirect to the clean path; otherwise the first matching route gives
the handler and the variables; with no matching route the router answers by
itself. -/
def dispatch (rs : List Route) (r : Request) : Dispatch :=
  if cleanPath r.Path.data ≠ r.Path.data then .redirect (String.mk (cleanPath r.Path.data))
  else match routerMatch rs r with
    | some (h, vars) => .handler h vars
    | none => .noMatch

/-- The method `Router.ServeHTTP`, as far as a handler of `main.go` runs: the
handler is called on a fresh writer with the route variables attached; for a
redirect or an unmatched request no handler runs. -/
def serveHTTP (rs : List Route) (r : Request) (env : Env) : Option (ResponseWriter × Env) :=
  match dispatch rs r with
  | .handler h vars => some (h.run ResponseWriter.fresh { r with Vars := vars } env)
  | _ => none

/-! ## encoding/json, input side -/

/-- A JSON value as read from a request body. A string keeps, next to its
value, the raw text between its quotes; a number keeps its literal. -/
inductive Doc where
  | null
  | bool (b : Bool)
  | number (literal : String)
  | string (value : String) (raw : String)
  | array (items : List Doc)
  | object (members : List (String × Doc))
  deriving Repr

/-- Input with leading JSON whitespace removed. -/
def skipSpace : List Char → List Char
  | c :: cs => if c = ' ' ∨ c = '\t' ∨ c = '\r' ∨ c = '\n' then skipSpace cs else c :: cs
  | [] => []

/-- The value of a hexadecimal digit. -/
def hexDigit (c : Char) : Option Nat :=
  if '0' ≤ c ∧ c ≤ '9' then some (c.toNat - '0'.toNat)
  else if 'a' ≤ c ∧ c ≤ 'f' then some (c.toNat - 'a'.toNat + 10)
  else if 'A' ≤ c ∧ c ≤ 'F' then some (c.toNat - 'A'.toNat + 10)
  else none

/-- The number written by four hexadecimal digits. -/
def hex4 (a b c d : Char) : Option Nat :=
  match hexDigit a, hexDigit b, hexDigit c, hexDigit d with
  | some w, some x, some y, some z => some (((w * 16 + x) * 16 + y) * 16 + z)
  | _, _, _, _ => none

/-- The character a simple escape stands for. -/
def escapeChar (e : Char) : Option Char :=
  if e = '"' then some '"' else if e = '\\' then some '\\' else if e = '/' then some '/'
  else if e = 'b' then some (Char.ofNat 8) else if e = 'f' then some (Char.ofNat 12)
  else if e = 'n' then some '\n' else if e = 'r' then some '\r' else if e = 't' then some '\t'
  else none

/-- The rest of a string after its opening quote. The units read so far (a
code point, marked when written as a `\u` escape) and the raw text are carried
along, both last first; the result is the units, the raw text and the input
after the closing quote. Control characters are refused. -/
def parseStringTail :
    List Char → List (Bool × Nat) → List Char → Option (List (Bool × Nat) × String × List Char)
  | [], _, _ => none
  | '"' :: rest, units, raw => some (units.reverse, String.mk raw.reverse, rest)
  | '\\' :: 'u' :: a :: b :: c :: d :: rest, units, raw =>
    match hex4 a b c d with
    | some n => parseStringTail rest ((true, n) :: units) (d :: c :: b :: a :: 'u' :: '\\' :: raw)
    | none => none
  | '\\' :: e :: rest, units, raw =>
    match escapeChar e with
    | some c => parseStringTail rest ((false, c.toNat) :: units) (e :: '\\' :: raw)
    | none => none
  | c :: rest, units, raw =>
    if c.toNat < 0x20 then none else parseStringTail rest ((false, c.toNat) :: units) (c :: raw)

/-- The character of one unit: a surrogate on its own becomes U+FFFD. -/
def unitChar (n : Nat) : Char :=
  if 0xD800 ≤ n ∧ n < 0xE000 then Char.ofNat 0xFFFD else Char.ofNat n

/-- The characters of a string. A high surrogate escape directly followed by
a low surrogate escape is one character; `pending` is a high surrogate escape
just read, which becomes U+FFFD when no low surrogate escape follows it. -/
def joinUnits : Option Nat → List (Bool × Nat) → List Char
  | none, [] => []
  | some _, [] => [Char.ofNat 0xFFFD]
  | none, (esc, n) :: rest =>
    if esc = true ∧ 0xD800 ≤ n ∧ n < 0xDC00 then joinUnits (some n) rest
    else unitChar n :: joinUnits none rest
  | some hi, (esc, n) :: rest =>
    if esc = true ∧ 0xDC00 ≤ n ∧ n < 0xE000 then
      Char.ofNat (0x10000 + (hi - 0xD800) * 0x400 + (n - 0xDC00)) :: joinUnits none rest
    else if esc = true ∧ 0xD800 ≤ n ∧ n < 0xDC00 then
      Char.ofNat 0xFFFD :: joinUnits (some n) rest
    else Char.ofNat 0xFFFD :: unitChar n :: joinUnits none rest

/-- A string, from its opening quote on: value, raw text and remaining input. -/
def parseString : List Char → Option (String × String × List Char)
  | '"' :: rest =>
    match parseStringTail rest [] [] with
    | some (units, raw, rest) => some (String.mk (joinUnits none units), raw, rest)
    | none => none
  | _ => none

/-- A run of decimal digits and what follows it. -/
def takeDigits : List Char → List Char × List Char
  | c :: cs =>
    if c.isDigit then ((takeDigits cs).1.cons c, (takeDigits cs).2) else ([], c :: cs)
  | [] => ([], [])

/-- A number literal and the input after it: an optional minus, an integer
part without leading zero, an optional fraction and an optional exponent. Once
a part has begun it must be complete. -/
def parseNumber (cs : List Char) : Option (String × List Char) :=
  let (sign, cs) := match cs with
    | '-' :: rest => (['-'], rest)
    | _ => ([], cs)
  let intPart : Option (List Char × List Char) := match cs with
    | '0' :: rest => some (['0'], rest)
    | c :: _ => if c.isDigit then some (takeDigits cs) else none
    | [] => none
  match intPart with
  | none => none
  | some (ds, cs) =>
    let frac : Option (List Char × List Char) := match cs with
      | '.' :: rest =>
        match takeDigits rest with
        | ([], _) => none
        | (fs, rest) => some ('.' :: fs, rest)
      | _ => some ([], cs)
    match frac with
    | none => none
    | some (fs, cs) =>
      let expo : Option (List Char × List Char) :=
        let withSign (e : Char) (rest : List Char) : Option (List Char × List Char) :=
          let (sg, rest) := match rest with
            | '+' :: r => (['+'], r)
            | '-' :: r => (['-'], r)
            | _ => ([], rest)
          match takeDigits rest with
          | ([], _) => none
          | (es, rest) => some (e :: sg ++ es, rest)
        match cs with
        | 'e' :: rest => withSign 'e' rest
        | 'E' :: rest => withSign 'E' rest
        | _ => some ([], cs)
      match expo with
      | none => none
      | some (es, cs) => some (String.mk (sign ++ ds ++ fs ++ es), cs)

/-- The nesting depth beyond which the scanner of `encoding/json` gives up. -/
def maxNestingDepth : Nat := 10000

mutual

/-- One JSON value at the head of the input, after whitespace, and the input
after it. `fuel` bounds the number of nested calls and `depth` counts the
enclosing arrays and objects. -/
def parseValue : Nat → Nat → List Char → Option (Doc × List Char)
  | 0, _, _ => none
  | fuel + 1, depth, cs =>
    match skipSpace cs with
    | '{' :: rest =>
      if depth ≥ maxNestingDepth then none
      else match skipSpace rest with
        | '}' :: rest => some (.object [], rest)
        | rest =>
          match parseMembers fuel (depth + 1) rest with
          | some (ms, rest) => some (.object ms, rest)
          | none => none
    | '[' :: rest =>
      if depth ≥ maxNestingDepth then none
      else match skipSpace rest with
        | ']' :: rest => some (.array [], rest)
        | rest =>
          match parseElements fuel (depth + 1) rest with
          | some (xs, rest) => some (.array xs, rest)
          | none => none
    | '"' :: rest =>
      match parseString ('"' :: rest) with
      | some (value, raw, rest) => some (.string value raw, rest)
      | none => none
    | 't' :: 'r' :: 'u' :: 'e' :: rest => some (.bool true, rest)
    | 'f' :: 'a' :: 'l' :: 's' :: 'e' :: rest => some (.bool false, rest)
    | 'n' :: 'u' :: 'l' :: 'l' :: rest => some (.null, rest)
    | rest =>
      match parseNumber rest with
      | some (literal, rest) => some (.number literal, rest)
      | none => none

/-- The members of an object from its first key on, up to the closing brace. -/
def parseMembers : Nat → Nat → List Char → Option (List (String × Doc) × List Char)
  | 0, _, _ => none
  | fuel + 1, depth, cs =>
    match parseString (skipSpace cs) with
    | none => none
    | some (key, _, rest) =>
      match skipSpace rest with
      | ':' :: rest =>
        match parseValue fuel depth rest with
        | none => none
        | some (v, rest) =>
          match skipSpace rest with
          | ',' :: rest =>
            match parseMembers fuel depth rest with
            | some (ms, rest) => some ((key, v) :: ms, rest)
            | none => none
          | '}' :: rest => some ([(key, v)], rest)
          | _ => none
      | _ => none

/-- The elements of an array from its first element on, up to the closing
bracket. -/
def parseElements : Nat → Nat → List Char → Option (List Doc × List Char)
  | 0, _, _ => none
  | fuel + 1, depth, cs =>
    match parseValue fuel depth cs with
    | none => none
    | some (v, rest) =>
      match skipSpace rest with
      | ',' :: rest =>
        match parseElements fuel depth rest with
        | some (xs, rest) => some (v :: xs, rest)
        | none => none
      | ']' :: rest => some ([v], rest)
      | _ => none

end

/-- The first JSON value of a body, as `Decoder.Decode` reads it: whitespace
is skipped, one value is read, and what follows it is left unread. Between two
nested calls of the parser at least one character is consumed or one closing
bracket is still due, so the fuel given here is never used up. -/
def parseBody (body : String) : Option Doc :=
  (parseValue (2 * body.length + 2) 0 body.data).map Prod.fst

/-- The types of the fields of the four shapes. -/
inductive FieldType where
  | text
  | flag
  | instant
  deriving DecidableEq, Repr

/-- Case folding of one character of a key, as far as it can reach the letters
of the tags of `main.go`: capitals, the long s and the Kelvin sign. -/
def foldChar (c : Char) : Char :=
  if 'A' ≤ c ∧ c ≤ 'Z' then Char.ofNat (c.toNat + 32)
  else if c = Char.ofNat 0x17F then 's'
  else if c = Char.ofNat 0x212A then 'k'
  else c

/-- A key of the body with its case folded. A key addresses the field whose
tag it equals exactly or up to case; the tags of one shape being in lower case
and distinct, that is the field whose tag is the folded key. -/
def foldKey (key : String) : String :=
  String.mk (key.data.map foldChar)

/-- The members of an object; any other value has none. -/
def Doc.members : Doc → List (String × Doc)
  | .object ms => ms
  | _ => []

/-- Whether a value can be stored into a field of the given type: `null`
leaves any field as it is, a string goes into a text field, a boolean into a
flag, and a string into a time field when `parseTime`, standing for
`Time.UnmarshalJSON`, accepts its raw text. -/
def FieldType.accepts (parseTime : String → Option Time) : FieldType → Doc → Bool
  | _, .null => true
  | .text, .string _ _ => true
  | .flag, .bool _ => true
  | .instant, .string _ raw => (parseTime raw).isSome
  | _, _ => false

/-- Whether a value decodes into a struct with the given tags and field types:
it is `null`, or an object in which every member that addresses a field holds
a value that field accepts. Members that address no field are skipped. -/
def Doc.fits (parseTime : String → Option Time) (shape : List (String × FieldType)) : Doc → Bool
  | .null => true
  | .object ms => ms.all fun m =>
      match shape.lookup (foldKey m.1) with
      | none => true
      | some ty => ty.accepts parseTime m.2
  | _ => false

/-- The text a body gives to the field tagged `tag`: the string of the last
member that addresses the field and holds a string; the empty string, the zero
value, when there is none. -/
def Doc.text (doc : Doc) (tag : String) : String :=
  doc.members.foldl (fun cur m =>
    if foldKey m.1 = tag then
      match m.2 with
      | .string value _ => value
      | _ => cur
    else cur) ""

/-- The boolean a body gives to the field tagged `tag`, `false` when none. -/
def Doc.flag (doc : Doc) (tag : String) : Bool :=
  doc.members.foldl (fun cur m =>
    if foldKey m.1 = tag then
      match m.2 with
      | .bool b => b
      | _ => cur
    else cur) false

/-- The time a body gives to the field tagged `tag`, the zero time when none. -/
def Doc.instant (parseTime : String → Option Time) (doc : Doc) (tag : String) : Time :=
  doc.members.foldl (fun cur m =>
    if foldKey m.1 = tag then
      match m.2 with
      | .string _ raw => (parseTime raw).getD cur
      | _ => cur
    else cur) ⟨0⟩

/-- The decoding `json.NewDecoder(body).Decode(&binding)` into a zero
`ServiceBinding`, without the text of the error. -/
def jsonDecodeBinding (parseTime : String → Option Time) (body : String) :
    Option ServiceBinding :=
  match parseBody body with
  | none => none
  | some doc =>
    if doc.fits parseTime [("id", .text), ("instance_id", .text), ("service_id", .text),
        ("plan_id", .text), ("created_at", .instant)] then
      some { ID := doc.text "id", InstanceID := doc.text "instance_id",
             ServiceID := doc.text "service_id", PlanID := doc.text "plan_id",
             CreatedAt := doc.instant parseTime "created_at" }
    else none

/-- The decoding into a zero `ServiceOffering`. -/
def jsonDecodeOffering (parseTime : String → Option Time) (body : String) :
    Option ServiceOffering :=
  match parseBody body with
  | none => none
  | some doc =>
    if doc.fits parseTime [("id", .text), ("name", .text), ("description", .text),
        ("created_at", .instant), ("updated_at", .instant)] then
      some { ID := doc.text "id", Name := doc.text "name",
             Description := doc.text "description",
             CreatedAt := doc.instant parseTime "created_at",
             UpdatedAt := doc.instant parseTime "updated_at" }
    else none

/-- The decoding into a zero `ServicePlan`. -/
def jsonDecodePlan (parseTime : String → Option Time) (body : String) : Option ServicePlan :=
  match parseBody body with
  | none => none
  | some doc =>
    if doc.fits parseTime [("id", .text), ("name", .text), ("description", .text),
        ("free", .flag), ("created_at", .instant), ("updated_at", .instant)] then
      some { ID := doc.text "id", Name := doc.text "name",
             Description := doc.text "description", Free := doc.flag "free",
             CreatedAt := doc.instant parseTime "created_at",
             UpdatedAt := doc.instant parseTime "updated_at" }
    else none

/-- The decoding into a zero `ServiceInstance`. -/
def jsonDecodeInstance (parseTime : String → Option Time) (body : String) :
    Option ServiceInstance :=
  match parseBody body with
  | none => none
  | some doc =>
    if doc.fits parseTime [("id", .text), ("name", .text), ("service_id", .text),
        ("plan_id", .text), ("created_at", .instant), ("updated_at", .instant)] then
      some { ID := doc.text "id", Name := doc.text "name",
             ServiceID := doc.text "service_id", PlanID := doc.text "plan_id",
             CreatedAt := doc.instant parseTime "created_at",
             UpdatedAt := doc.instant parseTime "updated_at" }
    else none

/-- The decoders of the environment are those of `encoding/json`: each
succeeds on the bodies on which the decoding above succeeds, with the same
value. The text of the errors is left to the environment. -/
def Env.DecodesJSON (env : Env) (parseTime : String → Option Time) : Prop :=
  ∀ body : String,
    (env.decodeBinding body).toOption = jsonDecodeBinding parseTime body ∧
    (env.decodeOffering body).toOption = jsonDecodeOffering parseTime body ∧
    (env.decodePlan body).toOption = jsonDecodePlan parseTime body ∧
    (env.decodeInstance body).toOption = jsonDecodeInstance parseTime body

/-! ## Runs of the server, and the vocabulary of the statements -/

/-- A run of the server: the requests are served one after another, each by
its handler on a fresh writer, and the environment is handed on. -/
def serveAll : List (Handler × Request) → Env → List ResponseWriter × Env
  | [], env => ([], env)
  | (h, r) :: rest, env =>
    let (w, env) := h.run ResponseWriter.fresh r env
    let (ws, env) := serveAll rest env
    (w :: ws, env)

mutual

/-- The helper `respondWithJSON` with a bound on the depth of calls: every call
of either helper spends one unit, and `none` means the bound was reached. -/
def respondWithJSONFuel : Nat → ResponseWriter → Nat → Value → Option ResponseWriter
  | 0, _, _, _ => none
  | fuel + 1, w, code, payload =>
    match jsonMarshal payload with
    | .error err =>
      respondWithErrorFuel fuel w http.StatusInternalServerError "Internal Server Error" err
    | .ok response =>
      some (((w.HeaderSet "Content-Type" "application/json").WriteHeader code).Write (.json response))

/-- The helper `respondWithError` with the same bound. -/
def respondWithErrorFuel : Nat → ResponseWriter → Nat → String → String → Option ResponseWriter
  | 0, _, _, _, _ => none
  | fuel + 1, w, code, message, description =>
    respondWithJSONFuel fuel w code (.errorResponse { Error := message, Description := description })

end

/-- The `id` of the record in a 201 response. -/
def createdId (w : ResponseWriter) : Option String :=
  if w.status = some http.StatusCreated then
    match w.body with
    | [.json doc] =>
      match doc.field "id" with
      | some (.str id) => some id
      | _ => none
    | _ => none
  else none

/-- The response has the given status and the given JSON document as its
whole body. -/
def Responds (w : ResponseWriter) (code : Nat) (doc : Json) : Prop :=
  w.status = some code ∧ w.body = [.json doc]

/-- The list envelope around the given items with the given count. -/
def listEnvelope (items : List Json) (total : Int) : Json :=
  .obj [("items", .arr items), ("total_items", .num total)]

/-- The error envelope with the given message and detail. -/
def errorEnvelope (message description : String) : Json :=
  .obj [("error", .str message), ("description", .str description)]

/-- The four delete handlers. -/
def deleteHandlers : List Handler :=
  [.deleteServiceBinding, .deleteServiceOffering, .deleteServicePlan, .deleteServiceInstance]

/-- The four create handlers. -/
def createHandlers : List Handler :=
  [.createServiceBinding, .createServiceOffering, .createServicePlan, .createServiceInstance]

/-- A check that no path matches both templates. A template without variable
matches its literal only, so the other template is tried on that literal; two
templates with a variable overlap only when one literal extends the other by
text free of slashes. -/
def Template.apart (t u : Template) : Bool :=
  match t.param, u.param with
  | none, _ => (u.matchPath t.literal).isNone
  | some _, none => (t.matchPath u.literal).isNone
  | some _, some _ =>
    !(t.literal.data.isPrefixOf u.literal.data &&
        !(u.literal.data.drop t.literal.data.length).contains '/') &&
    !(u.literal.data.isPrefixOf t.literal.data &&
        !(t.literal.data.drop u.literal.data.length).contains '/')

/-- A check that no request matches both routes: the methods differ or the
templates are apart. -/
def Route.apart (a b : Route) : Bool :=
  a.method != b.method || a.template.apart b.template

/-- The body of the scenario `POST /v1/service_plans`: the JSON object with
name gold, description Gold tier and free false. -/
def goldBody : String :=
  "\x7b\"name\":\"gold\",\"description\":\"Gold tier\",\"free\":false\x7d"

/-- The same object with a client-supplied id in front. -/
def goldBodyWithId : String :=
  "\x7b\"id\":\"client\",\"name\":\"gold\",\"description\":\"Gold tier\",\"free\":false\x7d"

/-- An environment for evaluating the handlers on concrete requests: the n-th
token is n+1 letters long and the n-th clock reading is n. Its decoders know
three bodies: the empty body, refused with `EOF`, and the two bodies above,
read into each shape by the fields that shape has (the others stay at their
zero values); any other body they refuse. -/
def sampleEnv : Env where
  uuids := fun n => String.mk (List.replicate (n + 1) 'u')
  drawn := 0
  clock := fun n => ⟨n⟩
  ticks := 0
  decodeBinding := fun body =>
    if body = goldBody then .ok ⟨"", "", "", "", ⟨0⟩⟩
    else if body = goldBodyWithId then .ok ⟨"client", "", "", "", ⟨0⟩⟩
    else if body = "" then .error "EOF"
    else .error "unexpected body"
  decodeOffering := fun body =>
    if body = goldBody then .ok ⟨"", "gold", "Gold tier", ⟨0⟩, ⟨0⟩⟩
    else if body = goldBodyWithId then .ok ⟨"client", "gold", "Gold tier", ⟨0⟩, ⟨0⟩⟩
    else if body = "" then .error "EOF"
    else .error "unexpected body"
  decodePlan := fun body =>
    if body = goldBody then .ok ⟨"", "gold", "Gold tier", false, ⟨0⟩, ⟨0⟩⟩
    else if body = goldBodyWithId then .ok ⟨"client", "gold", "Gold tier", false, ⟨0⟩, ⟨0⟩⟩
    else if body = "" then .error "EOF"
    else .error "unexpected body"
  decodeInstance := fun body =>
    if body = goldBody then .ok ⟨"", "gold", "", "", ⟨0⟩, ⟨0⟩⟩
    else if body = goldBodyWithId then .ok ⟨"client", "gold", "", "", ⟨0⟩, ⟨0⟩⟩
    else if body = "" then .error "EOF"
    else .error "unexpected body"

/-- A run of three create requests: a plan whose payload carries an id, a
binding with an empty body, and an instance. -/
def sampleRun : List (Handler × Request) :=
  [(.createServicePlan, ⟨"POST", "/v1/service_plans", goldBodyWithId, []⟩),
   (.createServiceBinding, ⟨"POST", "/v1/service_bindings", "", []⟩),
   (.createServiceInstance, ⟨"POST", "/v1/service_instances", goldBody, []⟩)]

/-- A stand-in for `Time.UnmarshalJSON`, for evaluation: it knows the text of
the zero time and no other. -/
def sampleParseTime (raw : String) : Option Time :=
  if raw = "0001-01-01T00:00:00Z" then some ⟨0⟩ else none

/-- A decoding result as `Decode` returns it, a failure with a fixed text. -/
def orDecodeError {α : Type} : Option α → Except String α
  | some v => .ok v
  | none => .error "decode error"

/-- The sample environment with the decoders of `encoding/json` in place of
its table of bodies. -/
def jsonEnv : Env :=
  { sampleEnv with
    decodeBinding := fun body => orDecodeError (jsonDecodeBinding sampleParseTime body)
    decodeOffering := fun body => orDecodeError (jsonDecodeOffering sampleParseTime body)
    decodePlan := fun body => orDecodeError (jsonDecodePlan sampleParseTime body)
    decodeInstance := fun body => orDecodeError (jsonDecodeInstance sampleParseTime body) }

/-- The rule of the create handler `create`, which decodes with `decode`:
status 400 exactly when decoding fails, else 201; on failure the response is
the error envelope with the decoder's text and the environment is left as it
was, no token drawn and no clock read. -/
def CreateStatusRule {α : Type} (create : ResponseWriter → Request → Env → ResponseWriter × Env)
    (decode : Env → String → Except String α) (r : Request) (env : Env) : Prop :=
  ((create ResponseWriter.fresh r env).1.status = some 400
      ↔ ∃ err, decode env r.Body = .error err) ∧
  ((create ResponseWriter.fresh r env).1.status ≠ some 400
      → (create ResponseWriter.fresh r env).1.status = some 201) ∧
  (∀ err, decode env r.Body = .error err →
      create ResponseWriter.fresh r env
        = (⟨[.headerSet "Content-Type" "application/json", .writeHeader 400,
              .write (.json (errorEnvelope "Invalid request payload" err))]⟩, env))

/-! ## The response helpers -/

/-- The helper `respondWithJSON` in closed form: on a marshal error the 500
error envelope is written, otherwise the marshalled payload with the given
status; in both cases one header, one status line and one body. -/
theorem respondWithJSON_eq (w : ResponseWriter) (code : Nat) (payload : Value) :
    respondWithJSON w code payload =
      match jsonMarshal payload with
      | .error err =>
        ⟨w.calls ++ [.headerSet "Content-Type" "application/json", .writeHeader 500,
          .write (.json (errorEnvelope "Internal Server Error" err))]⟩
      | .ok doc =>
        ⟨w.calls ++ [.headerSet "Content-Type" "application/json", .writeHeader code,
          .write (.json doc)]⟩ := by
  rw [respondWithJSON]
  split
  · next err h =>
    rw [respondWithError, respondWithJSON]
    simp [h, jsonMarshal, ResponseWriter.HeaderSet, ResponseWriter.WriteHeader,
      ResponseWriter.Write, http.StatusInternalServerError, ErrorResponse.toJson, errorEnvelope]
  · next doc h =>
    simp [h, ResponseWriter.HeaderSet, ResponseWriter.WriteHeader, ResponseWriter.Write]

/-- The helper `respondWithError` in closed form. -/
theorem respondWithError_eq (w : ResponseWriter) (code : Nat) (message description : String) :
    respondWithError w code message description =
      ⟨w.calls ++ [.headerSet "Content-Type" "application/json", .writeHeader code,
        .write (.json (errorEnvelope message description))]⟩ := by
  rw [respondWithError, respondWithJSON_eq]
  simp [jsonMarshal, ErrorResponse.toJson, errorEnvelope]

/-- C10: the mutual recursion of respondWithJSON and respondWithError ends for
every writer, status code and payload. An ErrorResponse always marshals, so a
depth of three calls (respondWithJSON, respondWithError, respondWithJSON) is
never exceeded: respondWithError is entered at most once and the call it makes
takes the success branch. Every call of respondWithJSON appends exactly one
header, one status line and one body to the writer. -/
theorem respond_helpers_terminate (w : ResponseWriter) (code : Nat) (payload : Value)
    (message description : String) (fuel : Nat) :
    respondWithJSONFuel (fuel + 3) w code payload = some (respondWithJSON w code payload) ∧
    respondWithErrorFuel (fuel + 2) w code message description
      = some (respondWithError w code message description) ∧
    jsonMarshal (.errorResponse ⟨message, description⟩)
      = .ok (errorEnvelope message description) ∧
    respondWithError w code message description
      = ⟨w.calls ++ [.headerSet "Content-Type" "application/json", .writeHeader code,
          .write (.json (errorEnvelope message description))]⟩ ∧
    (∃ status doc, respondWithJSON w code payload
      = ⟨w.calls ++ [.headerSet "Content-Type" "application/json", .writeHeader status,
          .write (.json doc)]⟩) ∧
    (respondWithJSON ResponseWriter.fresh code payload).statusLines.length = 1 ∧
    (respondWithJSON ResponseWriter.fresh code payload).body.length = 1 := by
  refine ⟨?_, ?_, ?_, respondWithError_eq w code message description, ?_, ?_, ?_⟩
  · rw [respondWithJSON_eq]
    cases h : jsonMarshal payload with
    | error err =>
      simp [respondWithJSONFuel, respondWithErrorFuel, h, jsonMarshal, ErrorResponse.toJson,
        errorEnvelope, ResponseWriter.HeaderSet, ResponseWriter.WriteHeader, ResponseWriter.Write,
        http.StatusInternalServerError]
    | ok doc =>
      simp [respondWithJSONFuel, h, ResponseWriter.HeaderSet, ResponseWriter.WriteHeader,
        ResponseWriter.Write]
  · rw [respondWithError_eq]
    simp [respondWithJSONFuel, respondWithErrorFuel, jsonMarshal, ErrorResponse.toJson,
      errorEnvelope, ResponseWriter.HeaderSet, ResponseWriter.WriteHeader, ResponseWriter.Write]
  · simp [jsonMarshal, ErrorResponse.toJson, errorEnvelope]
  · rw [respondWithJSON_eq]
    cases jsonMarshal payload with
    | error err => exact ⟨500, _, rfl⟩
    | ok doc => exact ⟨code, doc, rfl⟩
  · rw [respondWithJSON_eq]
    cases jsonMarshal payload <;> simp [ResponseWriter.statusLines, ResponseWriter.fresh]
  · rw [respondWithJSON_eq]
    cases jsonMarshal payload <;> simp [ResponseWriter.body, ResponseWriter.fresh]

/-- C5, the claim as stated fails: marshalling a channel fails with the text
`json: unsupported type: chan int`, and the 500 response carries exactly that
text in its description; for another failing payload the body is another. -/
theorem marshal_failure_detail_in_description :
    jsonMarshal (.chan "chan int") = .error "json: unsupported type: chan int" ∧
    Responds (respondWithJSON ResponseWriter.fresh 200 (.chan "chan int")) 500
      (.obj [("error", .str "Internal Server Error"),
             ("description", .str "json: unsupported type: chan int")]) ∧
    (respondWithJSON ResponseWriter.fresh 200 (.chan "chan int")).body
      ≠ (respondWithJSON ResponseWriter.fresh 200 (.chan "func()")).body := by
  refine ⟨rfl, ?_, ?_⟩
  · simp [Responds, respondWithJSON_eq, jsonMarshal, ResponseWriter.status, ResponseWriter.body,
      ResponseWriter.fresh, errorEnvelope]
  · simp [respondWithJSON_eq, jsonMarshal, ResponseWriter.body, ResponseWriter.fresh, errorEnvelope]

/-- C5, amended: when marshalling the payload fails with the text err,
respondWithJSON appends one header, the status line 500 and one body, the error
envelope whose error is `Internal Server Error` and whose description is err
itself; nothing of the payload is written. -/
theorem marshal_failure_responds_500 (w : ResponseWriter) (code : Nat) (payload : Value)
    (err : String) (h : jsonMarshal payload = .error err) :
    respondWithJSON w code payload
      = ⟨w.calls ++ [.headerSet "Content-Type" "application/json", .writeHeader 500,
          .write (.json (errorEnvelope "Internal Server Error" err))]⟩ ∧
    Responds (respondWithJSON ResponseWriter.fresh code payload) 500
      (errorEnvelope "Internal Server Error" err) := by
  simp [Responds, respondWithJSON_eq, h, ResponseWriter.status, ResponseWriter.body,
    ResponseWriter.fresh]

/-- The amended C5 at a payload that fails to marshal. -/
theorem marshal_failure_responds_500_witness :
    jsonMarshal (.apiResponse (.chan "chan int") 3) = .error "json: unsupported type: chan int" ∧
    Responds (respondWithJSON ResponseWriter.fresh 200 (.apiResponse (.chan "chan int") 3)) 500
      (errorEnvelope "Internal Server Error" "json: unsupported type: chan int") :=
  ⟨rfl, (marshal_failure_responds_500 ResponseWriter.fresh 200
    (.apiResponse (.chan "chan int") 3) "json: unsupported type: chan int" rfl).2⟩

/-! ## The handlers -/

/-- C1: each of the four list handlers, on every request and in every
environment, responds with status 200 and one body, a list envelope whose
items hold exactly one record of the kind and whose total_items is the length
of items. -/
theorem list_handlers_one_record (r : Request) (env : Env) :
    (∃ (v : ServiceBinding) (items : List Json), items = [v.toJson] ∧
      Responds (getServiceBindings ResponseWriter.fresh r env).1 200
        (listEnvelope items items.length)) ∧
    (∃ (v : ServiceOffering) (items : List Json), items = [v.toJson] ∧
      Responds (getServiceOfferings ResponseWriter.fresh r env).1 200
        (listEnvelope items items.length)) ∧
    (∃ (v : ServicePlan) (items : List Json), items = [v.toJson] ∧
      Responds (getServicePlans ResponseWriter.fresh r env).1 200
        (listEnvelope items items.length)) ∧
    (∃ (v : ServiceInstance) (items : List Json), items = [v.toJson] ∧
      Responds (getServiceInstances ResponseWriter.fresh r env).1 200
        (listEnvelope items items.length)) := by
  refine ⟨⟨⟨env.uuids env.drawn, env.uuids (env.drawn + 1), env.uuids (env.drawn + 2),
      env.uuids (env.drawn + 3), env.clock env.ticks⟩, _, rfl, ?_⟩,
    ⟨⟨env.uuids env.drawn, "sample-service", "A sample service offering", env.clock env.ticks,
      env.clock (env.ticks + 1)⟩, _, rfl, ?_⟩,
    ⟨⟨env.uuids env.drawn, "basic-plan", "Basic service plan", true, env.clock env.ticks,
      env.clock (env.ticks + 1)⟩, _, rfl, ?_⟩,
    ⟨⟨env.uuids env.drawn, "test-instance", env.uuids (env.drawn + 1), env.uuids (env.drawn + 2),
      env.clock env.ticks, env.clock (env.ticks + 1)⟩, _, rfl, ?_⟩⟩ <;>
  simp [Responds, getServiceBindings, getServiceOfferings, getServicePlans, getServiceInstances,
    uuidNewString, timeNow, respondWithJSON_eq, jsonMarshal, ResponseWriter.status,
    ResponseWriter.body, ResponseWriter.fresh, http.StatusOK, listEnvelope, Nat.add_assoc]

/-- C6: each of the four delete handlers, whatever the request (its id and
body included) and the environment, only writes the status line 204: status
204, empty body, environment untouched. The response is the same for any other
request, and serving the same delete any number of times in a row gives that
same response every time. -/
theorem delete_responds_204 (h : Handler) (hdel : h ∈ deleteHandlers) (r r' : Request)
    (env env' : Env) (n : Nat) :
    h.run ResponseWriter.fresh r env = (⟨[.writeHeader 204]⟩, env) ∧
    (h.run ResponseWriter.fresh r env).1.status = some 204 ∧
    (h.run ResponseWriter.fresh r env).1.body = [] ∧
    (h.run ResponseWriter.fresh r env).1 = (h.run ResponseWriter.fresh r' env').1 ∧
    serveAll (List.replicate n (h, r)) env = (List.replicate n ⟨[.writeHeader 204]⟩, env) := by
  have hrun : ∀ (q : Request) (e : Env), h.run ResponseWriter.fresh q e = (⟨[.writeHeader 204]⟩, e) := by
    intro q e
    simp only [deleteHandlers, List.mem_cons, List.mem_singleton, List.not_mem_nil, or_false] at hdel
    rcases hdel with rfl | rfl | rfl | rfl <;>
    simp [Handler.run, deleteServiceBinding, deleteServiceOffering, deleteServicePlan,
      deleteServiceInstance, ResponseWriter.WriteHeader, ResponseWriter.fresh,
      http.StatusNoContent]
  refine ⟨hrun r env, ?_, ?_, ?_, ?_⟩
  · simp [hrun, ResponseWriter.status]
  · simp [hrun, ResponseWriter.body]
  · simp [hrun]
  · induction n with
    | zero => simp [serveAll]
    | succ k ih => simp [List.replicate_succ, serveAll, hrun, ih]

/-- C6 at a delete of a plan that was never created, served three times. -/
theorem delete_responds_204_witness :
    Handler.deleteServicePlan ∈ deleteHandlers ∧
    serveAll (List.replicate 3
        (Handler.deleteServicePlan,
          ⟨"DELETE", "/v1/service_plans/never-created", goldBody, [("id", "never-created")]⟩))
        sampleEnv
      = (List.replicate 3 ⟨[.writeHeader 204]⟩, sampleEnv) :=
  ⟨by decide, (delete_responds_204 Handler.deleteServicePlan (by decide)
    ⟨"DELETE", "/v1/service_plans/never-created", goldBody, [("id", "never-created")]⟩
    ⟨"DELETE", "/v1/service_plans/other", "", []⟩ sampleEnv sampleEnv 3).2.2.2.2⟩

/-- C4: for each of the four create handlers and every request, the status is
400 exactly when decoding the body into the handler's shape fails, and 201
otherwise; when decoding fails with the text err, the response is the one
error envelope with error `Invalid request payload`, a non-empty message, and
description err, and nothing was generated: no token drawn, no clock read. -/
theorem create_status_400_iff_decode_fails (r : Request) (env : Env) :
    CreateStatusRule createServiceBinding Env.decodeBinding r env ∧
    CreateStatusRule createServiceOffering Env.decodeOffering r env ∧
    CreateStatusRule createServicePlan Env.decodePlan r env ∧
    CreateStatusRule createServiceInstance Env.decodeInstance r env ∧
    "Invalid request payload" ≠ "" := by
  refine ⟨?_, ?_, ?_, ?_, by decide⟩
  · unfold CreateStatusRule
    cases h : env.decodeBinding r.Body <;>
    simp [createServiceBinding, h, uuidNewString, timeNow, respondWithJSON_eq,
      respondWithError_eq, jsonMarshal, ResponseWriter.status, ResponseWriter.fresh,
      http.StatusBadRequest, http.StatusCreated]
  · unfold CreateStatusRule
    cases h : env.decodeOffering r.Body <;>
    simp [createServiceOffering, h, uuidNewString, timeNow, respondWithJSON_eq,
      respondWithError_eq, jsonMarshal, ResponseWriter.status, ResponseWriter.fresh,
      http.StatusBadRequest, http.StatusCreated]
  · unfold CreateStatusRule
    cases h : env.decodePlan r.Body <;>
    simp [createServicePlan, h, uuidNewString, timeNow, respondWithJSON_eq,
      respondWithError_eq, jsonMarshal, ResponseWriter.status, ResponseWriter.fresh,
      http.StatusBadRequest, http.StatusCreated]
  · unfold CreateStatusRule
    cases h : env.decodeInstance r.Body <;>
    simp [createServiceInstance, h, uuidNewString, timeNow, respondWithJSON_eq,
      respondWithError_eq, jsonMarshal, ResponseWriter.status, ResponseWriter.fresh,
      http.StatusBadRequest, http.StatusCreated]

/-- A decoder that agrees with the decoding of `encoding/json` and succeeds
returns what that decoding returns. -/
theorem toOption_eq_of_ok {α : Type} (d : Except String α) (o : Option α) (v : α)
    (h : d.toOption = o) (hd : d = .ok v) : o = some v := by
  subst hd
  exact h.symm

/-- The environment `jsonEnv` decodes as `encoding/json` does. -/
theorem jsonEnv_decodesJSON : jsonEnv.DecodesJSON sampleParseTime := by
  intro body
  refine ⟨?_, ?_, ?_, ?_⟩
  · show (orDecodeError (jsonDecodeBinding sampleParseTime body)).toOption = _
    cases jsonDecodeBinding sampleParseTime body <;> rfl
  · show (orDecodeError (jsonDecodeOffering sampleParseTime body)).toOption = _
    cases jsonDecodeOffering sampleParseTime body <;> rfl
  · show (orDecodeError (jsonDecodePlan sampleParseTime body)).toOption = _
    cases jsonDecodePlan sampleParseTime body <;> rfl
  · show (orDecodeError (jsonDecodeInstance sampleParseTime body)).toOption = _
    cases jsonDecodeInstance sampleParseTime body <;> rfl

/-- A body whose members do not address the field gives it the empty text. -/
theorem Doc.text_of_absent (ms : List (String × Doc)) (tag : String)
    (h : ∀ m ∈ ms, foldKey m.1 ≠ tag) : (Doc.object ms).text tag = "" := by
  have ht : ∀ cur : String, ms.foldl (fun cur m =>
      if foldKey m.1 = tag then
        match m.2 with
        | .string value _ => value
        | _ => cur
      else cur) cur = cur := by
    induction ms with
    | nil => intro cur; rfl
    | cons m ms ih =>
      intro cur
      have hm : foldKey m.1 ≠ tag := h m (List.mem_cons_self _ _)
      simp only [List.foldl_cons, hm, if_false]
      exact ih (fun x hx => h x (List.mem_cons_of_mem _ hx)) cur
  exact ht ""

/-- A body whose members do not address the field gives it the flag false. -/
theorem Doc.flag_of_absent (ms : List (String × Doc)) (tag : String)
    (h : ∀ m ∈ ms, foldKey m.1 ≠ tag) : (Doc.object ms).flag tag = false := by
  have hf : ∀ cur : Bool, ms.foldl (fun cur m =>
      if foldKey m.1 = tag then
        match m.2 with
        | .bool b => b
        | _ => cur
      else cur) cur = cur := by
    induction ms with
    | nil => intro cur; rfl
    | cons m ms ih =>
      intro cur
      have hm : foldKey m.1 ≠ tag := h m (List.mem_cons_self _ _)
      simp only [List.foldl_cons, hm, if_false]
      exact ih (fun x hx => h x (List.mem_cons_of_mem _ hx)) cur
  exact hf false

/-- C3, the claim as stated fails: a client-supplied field outside the shape of
the kind is not returned. The body of the plan scenario, which supplies name,
description and free, decodes into a binding; posted to the bindings
collection it gets a 201 whose record has the five fields of a binding and
none of the three fields supplied. -/
theorem create_binding_drops_fields_outside_shape :
    parseBody goldBody
      = some (.object [("name", .string "gold" "gold"),
          ("description", .string "Gold tier" "Gold tier"), ("free", .bool false)]) ∧
    jsonEnv.decodeBinding goldBody = .ok ⟨"", "", "", "", ⟨0⟩⟩ ∧
    Responds
      (createServiceBinding ResponseWriter.fresh ⟨"POST", "/v1/service_bindings", goldBody, []⟩
        jsonEnv).1 201
      (.obj [("id", .str "u"), ("instance_id", .str ""), ("service_id", .str ""),
        ("plan_id", .str ""), ("created_at", .time ⟨0⟩)]) ∧
    Json.field "name"
      (.obj [("id", .str "u"), ("instance_id", .str ""), ("service_id", .str ""),
        ("plan_id", .str ""), ("created_at", .time ⟨0⟩)]) = none := by
  have hd : jsonEnv.decodeBinding goldBody = .ok ⟨"", "", "", "", ⟨0⟩⟩ := rfl
  refine ⟨rfl, hd, ?_, rfl⟩
  simp [Responds, createServiceBinding, hd, uuidNewString, timeNow, respondWithJSON_eq,
    jsonMarshal, ResponseWriter.status, ResponseWriter.body, ResponseWriter.fresh,
    http.StatusCreated, ServiceBinding.toJson]
  simp [jsonEnv, sampleEnv]

/-- C3, amended: in an environment whose decoders are those of encoding/json,
for every request and each create handler, when the body decodes into the
handler's shape then the body parses as a JSON value doc and the handler
responds 201 with one body, the record itself and no envelope. The record has
exactly the fields of the shape: id is the token just drawn, created_at (and
updated_at for the three kinds that have it) are clock readings, and every
other field holds what doc supplies for the field of that name, or the zero
value when doc supplies none. Members of doc outside the shape are not
returned. What doc supplies for a field is the value of its last member whose
key is the field's name up to case: a string or boolean member at the end of
an object is read back as it is, and a field no member addresses reads as
the empty string or false. -/
theorem create_returns_fields_of_shape (r : Request) (env : Env)
    (parseTime : String → Option Time) (hjson : env.DecodesJSON parseTime) :
    (∀ b : ServiceBinding, env.decodeBinding r.Body = .ok b →
      ∃ doc, parseBody r.Body = some doc ∧
        Responds (createServiceBinding ResponseWriter.fresh r env).1 201
          (.obj [("id", .str (env.uuids env.drawn)),
            ("instance_id", .str (doc.text "instance_id")),
            ("service_id", .str (doc.text "service_id")),
            ("plan_id", .str (doc.text "plan_id")),
            ("created_at", .time (env.clock env.ticks))])) ∧
    (∀ o : ServiceOffering, env.decodeOffering r.Body = .ok o →
      ∃ doc, parseBody r.Body = some doc ∧
        Responds (createServiceOffering ResponseWriter.fresh r env).1 201
          (.obj [("id", .str (env.uuids env.drawn)),
            ("name", .str (doc.text "name")),
            ("description", .str (doc.text "description")),
            ("created_at", .time (env.clock env.ticks)),
            ("updated_at", .time (env.clock (env.ticks + 1)))])) ∧
    (∀ p : ServicePlan, env.decodePlan r.Body = .ok p →
      ∃ doc, parseBody r.Body = some doc ∧
        Responds (createServicePlan ResponseWriter.fresh r env).1 201
          (.obj [("id", .str (env.uuids env.drawn)),
            ("name", .str (doc.text "name")),
            ("description", .str (doc.text "description")),
            ("free", .bool (doc.flag "free")),
            ("created_at", .time (env.clock env.ticks)),
            ("updated_at", .time (env.clock (env.ticks + 1)))])) ∧
    (∀ i : ServiceInstance, env.decodeInstance r.Body = .ok i →
      ∃ doc, parseBody r.Body = some doc ∧
        Responds (createServiceInstance ResponseWriter.fresh r env).1 201
          (.obj [("id", .str (env.uuids env.drawn)),
            ("name", .str (doc.text "name")),
            ("service_id", .str (doc.text "service_id")),
            ("plan_id", .str (doc.text "plan_id")),
            ("created_at", .time (env.clock env.ticks)),
            ("updated_at", .time (env.clock (env.ticks + 1)))])) ∧
    (∀ (ms : List (String × Doc)) (key v raw : String),
      (Doc.object (ms ++ [(key, .string v raw)])).text (foldKey key) = v) ∧
    (∀ (ms : List (String × Doc)) (key : String) (f : Bool),
      (Doc.object (ms ++ [(key, .bool f)])).flag (foldKey key) = f) ∧
    (∀ (ms : List (String × Doc)) (tag : String), (∀ m ∈ ms, foldKey m.1 ≠ tag) →
      (Doc.object ms).text tag = "" ∧ (Doc.object ms).flag tag = false) := by
  refine ⟨?_, ?_, ?_, ?_,
    fun ms key v raw => by simp [Doc.text, Doc.members, List.foldl_append],
    fun ms key f => by simp [Doc.flag, Doc.members, List.foldl_append],
    fun ms tag h => ⟨Doc.text_of_absent ms tag h, Doc.flag_of_absent ms tag h⟩⟩
  · intro b hd
    have h := toOption_eq_of_ok _ _ b (hjson r.Body).1 hd
    unfold jsonDecodeBinding at h
    cases hp : parseBody r.Body with
    | none => simp [hp] at h
    | some doc =>
      rw [hp] at h
      simp only at h
      split at h
      · injection h with h
        subst h
        refine ⟨doc, rfl, ?_⟩
        simp [Responds, createServiceBinding, hd, uuidNewString, timeNow, respondWithJSON_eq,
          jsonMarshal, ResponseWriter.status, ResponseWriter.body, ResponseWriter.fresh,
          http.StatusCreated, ServiceBinding.toJson]
      · cases h
  · intro o hd
    have h := toOption_eq_of_ok _ _ o (hjson r.Body).2.1 hd
    unfold jsonDecodeOffering at h
    cases hp : parseBody r.Body with
    | none => simp [hp] at h
    | some doc =>
      rw [hp] at h
      simp only at h
      split at h
      · injection h with h
        subst h
        refine ⟨doc, rfl, ?_⟩
        simp [Responds, createServiceOffering, hd, uuidNewString, timeNow, respondWithJSON_eq,
          jsonMarshal, ResponseWriter.status, ResponseWriter.body, ResponseWriter.fresh,
          http.StatusCreated, ServiceOffering.toJson]
      · cases h
  · intro p hd
    have h := toOption_eq_of_ok _ _ p (hjson r.Body).2.2.1 hd
    unfold jsonDecodePlan at h
    cases hp : parseBody r.Body with
    | none => simp [hp] at h
    | some doc =>
      rw [hp] at h
      simp only at h
      split at h
      · injection h with h
        subst h
        refine ⟨doc, rfl, ?_⟩
        simp [Responds, createServicePlan, hd, uuidNewString, timeNow, respondWithJSON_eq,
          jsonMarshal, ResponseWriter.status, ResponseWriter.body, ResponseWriter.fresh,
          http.StatusCreated, ServicePlan.toJson]
      · cases h
  · intro i hd
    have h := toOption_eq_of_ok _ _ i (hjson r.Body).2.2.2 hd
    unfold jsonDecodeInstance at h
    cases hp : parseBody r.Body with
    | none => simp [hp] at h
    | some doc =>
      rw [hp] at h
      simp only at h
      split at h
      · injection h with h
        subst h
        refine ⟨doc, rfl, ?_⟩
        simp [Responds, createServiceInstance, hd, uuidNewString, timeNow, respondWithJSON_eq,
          jsonMarshal, ResponseWriter.status, ResponseWriter.body, ResponseWriter.fresh,
          http.StatusCreated, ServiceInstance.toJson]
      · cases h

/-- The amended C3 at the scenario of the specification, with the decoders of
encoding/json: the body is parsed into its three members, and the plan comes
back with name gold, description Gold tier and free false as sent, a generated
id and two clock readings. -/
theorem create_returns_fields_of_shape_witness :
    jsonEnv.DecodesJSON sampleParseTime ∧
    parseBody goldBody
      = some (.object [("name", .string "gold" "gold"),
          ("description", .string "Gold tier" "Gold tier"), ("free", .bool false)]) ∧
    Responds
      (createServicePlan ResponseWriter.fresh ⟨"POST", "/v1/service_plans", goldBody, []⟩
        jsonEnv).1 201
      (.obj [("id", .str "u"), ("name", .str "gold"), ("description", .str "Gold tier"),
        ("free", .bool false), ("created_at", .time ⟨0⟩), ("updated_at", .time ⟨1⟩)]) := by
  have hparse : parseBody goldBody
      = some (.object [("name", .string "gold" "gold"),
          ("description", .string "Gold tier" "Gold tier"), ("free", .bool false)]) := rfl
  refine ⟨jsonEnv_decodesJSON, hparse, ?_⟩
  obtain ⟨doc, hdoc, hresp⟩ :=
    (create_returns_fields_of_shape ⟨"POST", "/v1/service_plans", goldBody, []⟩ jsonEnv
      sampleParseTime jsonEnv_decodesJSON).2.2.1 ⟨"", "gold", "Gold tier", false, ⟨0⟩, ⟨0⟩⟩ rfl
  have hd : doc = .object [("name", .string "gold" "gold"),
      ("description", .string "Gold tier" "Gold tier"), ("free", .bool false)] := by
    have h2 : parseBody goldBody = some doc := hdoc
    rw [hparse] at h2
    injection h2 with h2
    exact h2.symm
  subst hd
  exact hresp

/-- C8, the claim as stated fails: created_at and updated_at come from two
separate calls of time.Now. With a clock that reads 0 and then 1, the created
offering, the fetched plan and the listed instance each carry created_at 0 and
updated_at 1, which differ. -/
theorem created_at_differs_from_updated_at :
    Responds
      (createServiceOffering ResponseWriter.fresh ⟨"POST", "/v1/service_offerings", goldBody, []⟩
        sampleEnv).1 201
      (.obj [("id", .str "u"), ("name", .str "gold"), ("description", .str "Gold tier"),
        ("created_at", .time ⟨0⟩), ("updated_at", .time ⟨1⟩)]) ∧
    Responds
      (getServicePlan ResponseWriter.fresh ⟨"GET", "/v1/service_plans/p1", "", [("id", "p1")]⟩
        sampleEnv).1 200
      (.obj [("id", .str "p1"), ("name", .str "basic-plan"),
        ("description", .str "Basic service plan"), ("free", .bool true),
        ("created_at", .time ⟨0⟩), ("updated_at", .time ⟨1⟩)]) ∧
    Responds
      (getServiceInstances ResponseWriter.fresh ⟨"GET", "/v1/service_instances", "", []⟩
        sampleEnv).1 200
      (listEnvelope
        [.obj [("id", .str "u"), ("name", .str "test-instance"), ("service_id", .str "uu"),
          ("plan_id", .str "uuu"), ("created_at", .time ⟨0⟩), ("updated_at", .time ⟨1⟩)]] 1) ∧
    (⟨0⟩ : Time) ≠ ⟨1⟩ := by
  refine ⟨?_, ?_, ?_, by decide⟩
  · have h : sampleEnv.decodeOffering goldBody = .ok ⟨"", "gold", "Gold tier", ⟨0⟩, ⟨0⟩⟩ := rfl
    simp [Responds, createServiceOffering, h, uuidNewString, timeNow, respondWithJSON_eq,
      jsonMarshal, ResponseWriter.status, ResponseWriter.body, ResponseWriter.fresh,
      http.StatusCreated, ServiceOffering.toJson]
    simp [sampleEnv]
  · simp [Responds, getServicePlan, muxVars, uuidNewString, timeNow, respondWithJSON_eq,
      jsonMarshal, ResponseWriter.status, ResponseWriter.body, ResponseWriter.fresh,
      http.StatusOK, sampleEnv, ServicePlan.toJson]
  · simp [Responds, getServiceInstances, uuidNewString, timeNow, respondWithJSON_eq,
      jsonMarshal, ResponseWriter.status, ResponseWriter.body, ResponseWriter.fresh,
      http.StatusOK, sampleEnv, ServiceInstance.toJson, listEnvelope]

/-- C8, amended: for the three kinds with both timestamps, the record in the
response of the list, create and fetch-by-id handler has created_at set to one
reading of the clock and updated_at to the next reading, both taken while the
request is served; the two fields are equal only if those two readings are. -/
theorem timestamps_are_consecutive_readings (r : Request) (env : Env) :
    Responds (getServiceOfferings ResponseWriter.fresh r env).1 200
      (listEnvelope [ServiceOffering.toJson
        ⟨env.uuids env.drawn, "sample-service", "A sample service offering",
          env.clock env.ticks, env.clock (env.ticks + 1)⟩] 1) ∧
    (∀ o : ServiceOffering, env.decodeOffering r.Body = .ok o →
      Responds (createServiceOffering ResponseWriter.fresh r env).1 201
        (ServiceOffering.toJson
          ⟨env.uuids env.drawn, o.Name, o.Description,
            env.clock env.ticks, env.clock (env.ticks + 1)⟩)) ∧
    Responds (getServiceOffering ResponseWriter.fresh r env).1 200
      (ServiceOffering.toJson
        ⟨muxVars r "id", "sample-service", "A sample service offering",
          env.clock env.ticks, env.clock (env.ticks + 1)⟩) ∧
    Responds (getServicePlans ResponseWriter.fresh r env).1 200
      (listEnvelope [ServicePlan.toJson
        ⟨env.uuids env.drawn, "basic-plan", "Basic service plan", true,
          env.clock env.ticks, env.clock (env.ticks + 1)⟩] 1) ∧
    (∀ p : ServicePlan, env.decodePlan r.Body = .ok p →
      Responds (createServicePlan ResponseWriter.fresh r env).1 201
        (ServicePlan.toJson
          ⟨env.uuids env.drawn, p.Name, p.Description, p.Free,
            env.clock env.ticks, env.clock (env.ticks + 1)⟩)) ∧
    Responds (getServicePlan ResponseWriter.fresh r env).1 200
      (ServicePlan.toJson
        ⟨muxVars r "id", "basic-plan", "Basic service plan", true,
          env.clock env.ticks, env.clock (env.ticks + 1)⟩) ∧
    Responds (getServiceInstances ResponseWriter.fresh r env).1 200
      (listEnvelope [ServiceInstance.toJson
        ⟨env.uuids env.drawn, "test-instance", env.uuids (env.drawn + 1),
          env.uuids (env.drawn + 2), env.clock env.ticks, env.clock (env.ticks + 1)⟩] 1) ∧
    (∀ i : ServiceInstance, env.decodeInstance r.Body = .ok i →
      Responds (createServiceInstance ResponseWriter.fresh r env).1 201
        (ServiceInstance.toJson
          ⟨env.uuids env.drawn, i.Name, i.ServiceID, i.PlanID,
            env.clock env.ticks, env.clock (env.ticks + 1)⟩)) ∧
    Responds (getServiceInstance ResponseWriter.fresh r env).1 200
      (ServiceInstance.toJson
        ⟨muxVars r "id", "test-instance", env.uuids env.drawn, env.uuids (env.drawn + 1),
          env.clock env.ticks, env.clock (env.ticks + 1)⟩) := by
  refine ⟨?_, fun o ho => ?_, ?_, ?_, fun p hp => ?_, ?_, ?_, fun i hi => ?_, ?_⟩ <;>
  simp [Responds, getServiceOfferings, createServiceOffering, getServiceOffering,
    getServicePlans, createServicePlan, getServicePlan, getServiceInstances,
    createServiceInstance, getServiceInstance, *, uuidNewString, timeNow,
    respondWithJSON_eq, jsonMarshal, ResponseWriter.status, ResponseWriter.body,
    ResponseWriter.fresh, http.StatusOK, http.StatusCreated, listEnvelope, Nat.add_assoc]

/-- The amended C8 at a create of an instance: created_at is the reading 0 and
updated_at the reading 1. -/
theorem timestamps_are_consecutive_readings_witness :
    sampleEnv.decodeInstance goldBodyWithId = .ok ⟨"client", "gold", "", "", ⟨0⟩, ⟨0⟩⟩ ∧
    Responds
      (createServiceInstance ResponseWriter.fresh
        ⟨"POST", "/v1/service_instances", goldBodyWithId, []⟩ sampleEnv).1 201
      (.obj [("id", .str "u"), ("name", .str "gold"), ("service_id", .str ""),
        ("plan_id", .str ""), ("created_at", .time ⟨0⟩), ("updated_at", .time ⟨1⟩)]) :=
  ⟨rfl, (timestamps_are_consecutive_readings
    ⟨"POST", "/v1/service_instances", goldBodyWithId, []⟩ sampleEnv).2.2.2.2.2.2.2.1 _ rfl⟩

/-! ## Identities over a run -/

/-- One create request: the token source itself is left as it is, and either
nothing was created and no token drawn, or the created id is the next token
and one token was drawn. -/
theorem create_step (h : Handler) (hc : h ∈ createHandlers) (r : Request) (env : Env) :
    (h.run ResponseWriter.fresh r env).2.uuids = env.uuids ∧
    ((createdId (h.run ResponseWriter.fresh r env).1 = none ∧
        (h.run ResponseWriter.fresh r env).2.drawn = env.drawn) ∨
     (createdId (h.run ResponseWriter.fresh r env).1 = some (env.uuids env.drawn) ∧
        (h.run ResponseWriter.fresh r env).2.drawn = env.drawn + 1)) := by
  simp only [createHandlers, List.mem_cons, List.mem_singleton, List.not_mem_nil, or_false] at hc
  rcases hc with rfl | rfl | rfl | rfl
  · cases hd : env.decodeBinding r.Body <;>
    simp [Handler.run, createServiceBinding, hd, uuidNewString, timeNow, respondWithJSON_eq,
      respondWithError_eq, jsonMarshal, createdId, ResponseWriter.status, ResponseWriter.body,
      ResponseWriter.fresh, http.StatusBadRequest, http.StatusCreated, ServiceBinding.toJson,
      Json.field, List.lookup]
  · cases hd : env.decodeOffering r.Body <;>
    simp [Handler.run, createServiceOffering, hd, uuidNewString, timeNow, respondWithJSON_eq,
      respondWithError_eq, jsonMarshal, createdId, ResponseWriter.status, ResponseWriter.body,
      ResponseWriter.fresh, http.StatusBadRequest, http.StatusCreated, ServiceOffering.toJson,
      Json.field, List.lookup]
  · cases hd : env.decodePlan r.Body <;>
    simp [Handler.run, createServicePlan, hd, uuidNewString, timeNow, respondWithJSON_eq,
      respondWithError_eq, jsonMarshal, createdId, ResponseWriter.status, ResponseWriter.body,
      ResponseWriter.fresh, http.StatusBadRequest, http.StatusCreated, ServicePlan.toJson,
      Json.field, List.lookup]
  · cases hd : env.decodeInstance r.Body <;>
    simp [Handler.run, createServiceInstance, hd, uuidNewString, timeNow, respondWithJSON_eq,
      respondWithError_eq, jsonMarshal, createdId, ResponseWriter.status, ResponseWriter.body,
      ResponseWriter.fresh, http.StatusBadRequest, http.StatusCreated, ServiceInstance.toJson,
      Json.field, List.lookup]

/-- A run of create requests: the ids created are the tokens drawn, in the
order drawn, starting at the first token not yet drawn. -/
theorem serveAll_created_ids (reqs : List (Handler × Request)) :
    ∀ env : Env, (∀ x ∈ reqs, x.1 ∈ createHandlers) →
      ∃ k, (serveAll reqs env).1.filterMap createdId = (List.range' env.drawn k).map env.uuids ∧
        (serveAll reqs env).2.drawn = env.drawn + k ∧ (serveAll reqs env).2.uuids = env.uuids := by
  induction reqs with
  | nil => intro env _; exact ⟨0, by simp [serveAll]⟩
  | cons x rest ih =>
    intro env hall
    obtain ⟨h, r⟩ := x
    have hh : h ∈ createHandlers := hall (h, r) (List.mem_cons_self _ _)
    obtain ⟨hu, hstep⟩ := create_step h hh r env
    obtain ⟨k, hk, hd, hu2⟩ := ih (h.run ResponseWriter.fresh r env).2
      (fun y hy => hall y (List.mem_cons_of_mem _ hy))
    rcases hstep with ⟨hnone, hdr⟩ | ⟨hsome, hdr⟩
    · refine ⟨k, ?_, ?_, ?_⟩
      · simp only [serveAll, List.filterMap_cons, hnone, hk, hu, hdr]
      · simp only [serveAll, hd, hdr]
      · simp only [serveAll, hu2, hu]
    · refine ⟨k + 1, ?_, ?_, ?_⟩
      · simp only [serveAll, List.filterMap_cons, hsome, hk, hu, hdr]
        rw [List.range'_succ, List.map_cons]
      · simp only [serveAll, hd, hdr]; omega
      · simp only [serveAll, hu2, hu]

/-- C9: each create handler, on a body that decodes, responds 201 with the id
set to the token just drawn from the id source, whatever id the payload
carried. So with an id source whose tokens are non-empty and pairwise distinct,
the ids returned over any run of create requests, of any kinds and with any
bodies, are non-empty and pairwise distinct. -/
theorem created_ids_fresh_and_distinct (reqs : List (Handler × Request)) (env : Env)
    (hcreate : ∀ x ∈ reqs, x.1 ∈ createHandlers)
    (hinj : Function.Injective env.uuids) (hne : ∀ n, env.uuids n ≠ "") :
    ((serveAll reqs env).1.filterMap createdId).Nodup ∧
    (∀ id ∈ (serveAll reqs env).1.filterMap createdId, id ≠ "") ∧
    (∀ r b, env.decodeBinding r.Body = .ok b →
      createdId (createServiceBinding ResponseWriter.fresh r env).1 = some (env.uuids env.drawn)) ∧
    (∀ r o, env.decodeOffering r.Body = .ok o →
      createdId (createServiceOffering ResponseWriter.fresh r env).1 = some (env.uuids env.drawn)) ∧
    (∀ r p, env.decodePlan r.Body = .ok p →
      createdId (createServicePlan ResponseWriter.fresh r env).1 = some (env.uuids env.drawn)) ∧
    (∀ r i, env.decodeInstance r.Body = .ok i →
      createdId (createServiceInstance ResponseWriter.fresh r env).1 = some (env.uuids env.drawn)) := by
  obtain ⟨k, hk, -, -⟩ := serveAll_created_ids reqs env hcreate
  refine ⟨?_, ?_, ?_, ?_, ?_, ?_⟩
  · rw [hk]
    exact (List.nodup_range' env.drawn k).map hinj
  · intro id hid
    rw [hk, List.mem_map] at hid
    obtain ⟨n, -, rfl⟩ := hid
    exact hne n
  · intro r b hd
    simp [createServiceBinding, hd, uuidNewString, timeNow, respondWithJSON_eq, jsonMarshal,
      createdId, ResponseWriter.status, ResponseWriter.body, ResponseWriter.fresh,
      http.StatusCreated, ServiceBinding.toJson, Json.field, List.lookup]
  · intro r o hd
    simp [createServiceOffering, hd, uuidNewString, timeNow, respondWithJSON_eq, jsonMarshal,
      createdId, ResponseWriter.status, ResponseWriter.body, ResponseWriter.fresh,
      http.StatusCreated, ServiceOffering.toJson, Json.field, List.lookup]
  · intro r p hd
    simp [createServicePlan, hd, uuidNewString, timeNow, respondWithJSON_eq, jsonMarshal,
      createdId, ResponseWriter.status, ResponseWriter.body, ResponseWriter.fresh,
      http.StatusCreated, ServicePlan.toJson, Json.field, List.lookup]
  · intro r i hd
    simp [createServiceInstance, hd, uuidNewString, timeNow, respondWithJSON_eq, jsonMarshal,
      createdId, ResponseWriter.status, ResponseWriter.body, ResponseWriter.fresh,
      http.StatusCreated, ServiceInstance.toJson, Json.field, List.lookup]


/-- The tokens of the sample environment are pairwise distinct. -/
theorem sampleEnv_uuids_injective : Function.Injective sampleEnv.uuids := by
  intro a b hab
  have hlen := congrArg String.length hab
  simpa [sampleEnv, String.length] using hlen

/-- The tokens of the sample environment are non-empty. -/
theorem sampleEnv_uuids_ne_empty (n : Nat) : sampleEnv.uuids n ≠ "" := by
  intro hn
  have hlen := congrArg String.length hn
  simp [sampleEnv, String.length] at hlen

/-- C9 on a run of three create requests: a plan whose payload carries the id
`client`, a binding with an empty body, which is refused, and an instance. The
two ids returned are the first two tokens. -/
theorem created_ids_fresh_and_distinct_witness :
    (serveAll sampleRun sampleEnv).1.filterMap createdId = ["u", "uu"] ∧
    ((serveAll sampleRun sampleEnv).1.filterMap createdId).Nodup ∧
    (∀ id ∈ (serveAll sampleRun sampleEnv).1.filterMap createdId, id ≠ "") := by
  have h := created_ids_fresh_and_distinct sampleRun sampleEnv (by decide)
    sampleEnv_uuids_injective sampleEnv_uuids_ne_empty
  refine ⟨?_, h.1, h.2.1⟩
  have hp : sampleEnv.decodePlan goldBodyWithId
      = .ok ⟨"client", "gold", "Gold tier", false, ⟨0⟩, ⟨0⟩⟩ := rfl
  have hb : sampleEnv.decodeBinding "" = .error "EOF" := rfl
  have hi : sampleEnv.decodeInstance goldBody = .ok ⟨"", "gold", "", "", ⟨0⟩, ⟨0⟩⟩ := rfl
  simp [sampleRun, serveAll, Handler.run, createServicePlan, createServiceBinding,
    createServiceInstance, hp, hb, hi, uuidNewString, timeNow, respondWithJSON_eq,
    respondWithError_eq, jsonMarshal, createdId, ResponseWriter.status, ResponseWriter.body,
    ResponseWriter.fresh, http.StatusBadRequest, http.StatusCreated, ServicePlan.toJson,
    ServiceInstance.toJson, Json.field, List.lookup]
  simp [sampleEnv]

/-! ## The router -/

/-- A template without variable matches its literal and no other path. -/
theorem Template.matchPath_literal (t : Template) (ht : t.param = none) (p : String)
    (hm : (t.matchPath p).isSome) : p = t.literal := by
  unfold Template.matchPath at hm
  rw [ht] at hm
  by_cases hp : p.data = t.literal.data
  · exact String.ext hp
  · simp [hp] at hm

/-- A template with a variable matches a path only by extending its literal
with a non-empty text free of slashes. -/
theorem Template.matchPath_param (t : Template) (name : String) (ht : t.param = some name)
    (p : String) (hm : (t.matchPath p).isSome) :
    ∃ v, p.data = t.literal.data ++ v ∧ v ≠ [] ∧ '/' ∉ v := by
  unfold Template.matchPath at hm
  rw [ht] at hm
  by_cases hpre : t.literal.data.isPrefixOf p.data = true
  · obtain ⟨v, hv⟩ := List.isPrefixOf_iff_prefix.mp hpre
    have hdrop : List.drop t.literal.data.length p.data = v := by
      rw [← hv, List.drop_left]
    by_cases hval : v ≠ [] ∧ '/' ∉ v
    · exact ⟨v, hv.symm, hval.1, hval.2⟩
    · simp only [hpre, hdrop, if_true] at hm
      rw [if_neg hval] at hm
      simp at hm
  · simp [hpre] at hm

/-- The check `Template.apart` is sound: templates that pass it have no path
in common. -/
theorem Template.apart_disjoint (t u : Template) (h : t.apart u = true) (p : String) :
    ¬ ((t.matchPath p).isSome ∧ (u.matchPath p).isSome) := by
  rintro ⟨hmt, hmu⟩
  unfold Template.apart at h
  cases ht : t.param with
  | none =>
    have hp := Template.matchPath_literal t ht p hmt
    subst hp
    simp only [ht, Option.isNone_iff_eq_none] at h
    rw [h] at hmu
    exact Bool.noConfusion hmu
  | some nt =>
    cases hu : u.param with
    | none =>
      have hp := Template.matchPath_literal u hu p hmu
      subst hp
      simp only [ht, hu, Option.isNone_iff_eq_none] at h
      rw [h] at hmt
      exact Bool.noConfusion hmt
    | some nu =>
      obtain ⟨vt, hvt, -, hst⟩ := Template.matchPath_param t nt ht p hmt
      obtain ⟨vu, hvu, -, hsu⟩ := Template.matchPath_param u nu hu p hmu
      simp only [ht, hu, Bool.and_eq_true, Bool.not_eq_true', Bool.and_eq_false_iff,
        Bool.not_eq_false'] at h
      have hpt : t.literal.data <+: p.data := ⟨vt, hvt.symm⟩
      have hpu : u.literal.data <+: p.data := ⟨vu, hvu.symm⟩
      rcases List.prefix_or_prefix_of_prefix hpt hpu with hle | hle
      · obtain ⟨d, hd⟩ := hle
        have hdrop : List.drop t.literal.data.length u.literal.data = d := by
          rw [← hd, List.drop_left]
        have hvt2 : vt = d ++ vu := by
          have h1 : t.literal.data ++ vt = t.literal.data ++ (d ++ vu) := by
            rw [← hvt, hvu, ← hd, List.append_assoc]
          exact List.append_cancel_left h1
        have hnd : '/' ∉ d := fun hmem => hst (hvt2 ▸ List.mem_append_left _ hmem)
        rcases h.1 with hf | hc
        · rw [List.isPrefixOf_iff_prefix.mpr ⟨d, hd⟩] at hf
          exact Bool.noConfusion hf
        · rw [hdrop] at hc
          exact hnd (by simpa using hc)
      · obtain ⟨d, hd⟩ := hle
        have hdrop : List.drop u.literal.data.length t.literal.data = d := by
          rw [← hd, List.drop_left]
        have hvu2 : vu = d ++ vt := by
          have h1 : u.literal.data ++ vu = u.literal.data ++ (d ++ vt) := by
            rw [← hvu, hvt, ← hd, List.append_assoc]
          exact List.append_cancel_left h1
        have hnd : '/' ∉ d := fun hmem => hsu (hvu2 ▸ List.mem_append_left _ hmem)
        rcases h.2 with hf | hc
        · rw [List.isPrefixOf_iff_prefix.mpr ⟨d, hd⟩] at hf
          exact Bool.noConfusion hf
        · rw [hdrop] at hc
          exact hnd (by simpa using hc)

/-- A route matches only requests of its method whose path matches its
template. -/
theorem Route.Match_isSome (rt : Route) (r : Request) (h : (rt.Match r).isSome) :
    (rt.template.matchPath r.Path).isSome ∧ r.Method = rt.method := by
  unfold Route.Match at h
  cases hm : rt.template.matchPath r.Path with
  | none => simp [hm] at h
  | some vars =>
    by_cases hmeth : r.Method = rt.method
    · exact ⟨rfl, hmeth⟩
    · simp [hm, hmeth] at h

/-- The check `Route.apart` is sound: routes that pass it have no request in
common. -/
theorem Route.apart_exclusive (a b : Route) (h : a.apart b = true) (r : Request) :
    ¬ ((a.Match r).isSome ∧ (b.Match r).isSome) := by
  rintro ⟨ha, hb⟩
  obtain ⟨hpa, hma⟩ := Route.Match_isSome a r ha
  obtain ⟨hpb, hmb⟩ := Route.Match_isSome b r hb
  unfold Route.apart at h
  rcases Bool.or_eq_true _ _ ▸ h with hne | hap
  · exact (bne_iff_ne.mp hne) (hma.symm.trans hmb)
  · exact Template.apart_disjoint a.template b.template hap r.Path ⟨hpa, hpb⟩

/-- Any two of the routes registered in `main` pass the check `Route.apart`. -/
theorem routes_pairwise_apart : routes.Pairwise (fun a b => a.apart b = true) := by
  decide

/-- Among elements of which no two satisfy `p` together, at most one does. -/
theorem filter_length_le_one {α : Type} (p : α → Bool) (l : List α)
    (h : l.Pairwise (fun a b => ¬ (p a = true ∧ p b = true))) : (l.filter p).length ≤ 1 := by
  induction l with
  | nil => simp
  | cons a l ih =>
    rw [List.pairwise_cons] at h
    by_cases hpa : p a = true
    · have hnil : l.filter p = [] := by
        rw [List.filter_eq_nil_iff]
        intro b hb hpb
        exact h.1 b hb ⟨hpa, hpb⟩
      simp [List.filter_cons, hpa, hnil]
    · simp only [List.filter_cons, hpa]
      exact ih h.2

/-- Among elements of which no two are accepted by `f` together, the first
accepted one is any accepted one. -/
theorem findSome?_of_mem {α β : Type} (f : α → Option β) (l : List α)
    (h : l.Pairwise (fun a b => ¬ ((f a).isSome = true ∧ (f b).isSome = true)))
    (a : α) (ha : a ∈ l) (hfa : (f a).isSome = true) : l.findSome? f = f a := by
  induction l with
  | nil => cases ha
  | cons x xs ih =>
    rw [List.pairwise_cons] at h
    rcases List.mem_cons.mp ha with rfl | hmem
    · cases hx : f a with
      | none => rw [hx] at hfa; exact Bool.noConfusion hfa
      | some b => simp [List.findSome?, hx]
    · have hx : f x = none := by
        cases hx : f x with
        | none => rfl
        | some b => exact absurd ⟨by simp [hx], hfa⟩ (h.1 a hmem)
      simp only [List.findSome?, hx]
      exact ih h.2 hmem

/-- Among elements of which no two are accepted by `f` together, the first
accepted one does not depend on the order. -/
theorem findSome?_perm {α β : Type} (f : α → Option β) (l l' : List α) (hp : l'.Perm l)
    (h : l.Pairwise (fun a b => ¬ ((f a).isSome = true ∧ (f b).isSome = true))) :
    l'.findSome? f = l.findSome? f := by
  have hsymm : ∀ a b : α, ¬ ((f a).isSome = true ∧ (f b).isSome = true) →
      ¬ ((f b).isSome = true ∧ (f a).isSome = true) := fun _ _ hab hba => hab ⟨hba.2, hba.1⟩
  have h' : l'.Pairwise (fun a b => ¬ ((f a).isSome = true ∧ (f b).isSome = true)) :=
    (hp.pairwise_iff (fun {a b} hab => hsymm a b hab)).mpr h
  by_cases hex : ∃ a ∈ l, (f a).isSome = true
  · obtain ⟨a, ha, hfa⟩ := hex
    rw [findSome?_of_mem f l h a ha hfa, findSome?_of_mem f l' h' a (hp.mem_iff.mpr ha) hfa]
  · have hnone : ∀ a ∈ l, f a = none := by
      intro a ha
      cases hfa : f a with
      | none => rfl
      | some b => exact absurd ⟨a, ha, by simp [hfa]⟩ hex
    rw [List.findSome?_eq_none_iff.mpr hnone,
      List.findSome?_eq_none_iff.mpr (fun a ha => hnone a (hp.mem_iff.mp ha))]

/-- C7: `main` registers 17 routes, no two with the same method and template.
Two routes with different templates never match the same path, whatever the
method; for every request at most one route matches; and the handler and
variables selected, and so the decision of the router, are the same under every
reordering of the routes. -/
theorem routes_match_at_most_one (r : Request) :
    routes.length = 17 ∧
    (routes.map fun rt => (rt.method, rt.template)).Nodup ∧
    (∀ a ∈ routes, ∀ b ∈ routes, a.template ≠ b.template →
      ¬ ((a.template.matchPath r.Path).isSome ∧ (b.template.matchPath r.Path).isSome)) ∧
    (routes.filter fun rt => (rt.Match r).isSome).length ≤ 1 ∧
    (∀ rs : List Route, rs.Perm routes →
      routerMatch rs r = routerMatch routes r ∧ dispatch rs r = dispatch routes r) := by
  have hex : routes.Pairwise (fun a b => ¬ ((a.Match r).isSome = true ∧ (b.Match r).isSome = true)) :=
    routes_pairwise_apart.imp (fun {a b} hab => Route.apart_exclusive a b hab r)
  refine ⟨rfl, by decide, ?_, filter_length_le_one _ routes hex, ?_⟩
  · have hall : ∀ a ∈ routes, ∀ b ∈ routes,
        a.template = b.template ∨ a.template.apart b.template = true := by decide
    intro a ha b hb hne
    rcases hall a ha b hb with heq | hap
    · exact absurd heq hne
    · exact Template.apart_disjoint a.template b.template hap r.Path
  · intro rs hperm
    have hm : routerMatch rs r = routerMatch routes r := by
      unfold routerMatch
      apply findSome?_perm _ routes rs hperm
      refine hex.imp (fun {a b} hab hboth => hab ?_)
      simpa using hboth
    exact ⟨hm, by unfold dispatch; rw [hm]⟩

/-- A text free of slashes is one element. -/
theorem splitSlash_of_not_mem (s : List Char) (hs : '/' ∉ s) : splitSlash s = [s] := by
  induction s with
  | nil => rfl
  | cons c cs ih =>
    have hc : c ≠ '/' := fun h => hs (h ▸ List.mem_cons_self _ _)
    have hcs : '/' ∉ cs := fun h => hs (List.mem_cons_of_mem _ h)
    simp [splitSlash, hc, ih hcs]

/-- A text free of slashes followed by a slash is the first element. -/
theorem splitSlash_append (a t : List Char) (ha : '/' ∉ a) :
    splitSlash (a ++ '/' :: t) = a :: splitSlash t := by
  induction a with
  | nil => simp [splitSlash]
  | cons c cs ih =>
    have hc : c ≠ '/' := fun h => ha (h ▸ List.mem_cons_self _ _)
    have hcs : '/' ∉ cs := fun h => ha (List.mem_cons_of_mem _ h)
    simp [splitSlash, hc, ih hcs]

/-- A path of three proper elements is clean: `cleanPath` returns it as it is. -/
theorem cleanPath_three (a b s : List Char)
    (ha : '/' ∉ a) (ha0 : a ≠ []) (ha1 : a ≠ ['.']) (ha2 : a ≠ ['.', '.'])
    (hb : '/' ∉ b) (hb0 : b ≠ []) (hb1 : b ≠ ['.']) (hb2 : b ≠ ['.', '.'])
    (hs : '/' ∉ s) (hs0 : s ≠ []) (hs1 : s ≠ ['.']) (hs2 : s ≠ ['.', '.']) :
    cleanPath ('/' :: (a ++ '/' :: (b ++ '/' :: s))) = '/' :: (a ++ '/' :: (b ++ '/' :: s)) := by
  have hsplit : splitSlash ('/' :: (a ++ '/' :: (b ++ '/' :: s))) = [[], a, b, s] := by
    have h0 := splitSlash_append [] (a ++ '/' :: (b ++ '/' :: s)) (by simp)
    rw [List.nil_append] at h0
    rw [h0, splitSlash_append a _ ha, splitSlash_append b _ hb, splitSlash_of_not_mem s hs]
  have hclean : pathClean ('/' :: (a ++ '/' :: (b ++ '/' :: s)))
      = '/' :: (a ++ '/' :: (b ++ '/' :: s)) := by
    rw [pathClean, hsplit]
    simp [cleanElems, joinSlash, ha0, ha1, ha2, hb0, hb1, hb2, hs0, hs1, hs2]
  have hlast : ('/' :: (a ++ '/' :: (b ++ '/' :: s))).getLast? ≠ some '/' := by
    intro hl
    have hmem : '/' ∈ s := by
      have hrw : '/' :: (a ++ '/' :: (b ++ '/' :: s)) = ('/' :: (a ++ '/' :: (b ++ ['/']))) ++ s := by
        simp
      rw [hrw, List.getLast?_append_of_ne_nil _ hs0] at hl
      exact List.mem_of_getLast?_eq_some hl
    exact hs hmem
  unfold cleanPath
  simp [hlast]
  exact hclean


/-- For every request, no two routes of `main` match it together. -/
theorem routes_exclusive (r : Request) :
    routes.Pairwise (fun a b => ¬ ((a.Match r).isSome = true ∧ (b.Match r).isSome = true)) :=
  routes_pairwise_apart.imp (fun {a b} hab => Route.apart_exclusive a b hab r)

/-- A route of `main` that matches the request is the one the router selects. -/
theorem routerMatch_of_mem (r : Request) (rt : Route) (hrt : rt ∈ routes)
    (vars : List (String × String)) (h : rt.Match r = some vars) :
    routerMatch routes r = some (rt.handler, vars) := by
  have hex : routes.Pairwise (fun x y =>
      ¬ ((((x.Match r).map fun vs => (x.handler, vs)).isSome = true) ∧
         (((y.Match r).map fun vs => (y.handler, vs)).isSome = true))) := by
    refine (routes_exclusive r).imp ?_
    intro x y hxy hboth
    exact hxy (by simpa using hboth)
  unfold routerMatch
  rw [findSome?_of_mem _ routes hex rt hrt (by simp [h]), h]
  rfl

/-- A route with a variable matches the request whose method is the route's
and whose path is the literal followed by a non-empty text free of slashes,
and binds the variable to that text. -/
theorem Route.Match_param (rt : Route) (name : String) (hparam : rt.template.param = some name)
    (r : Request) (S : String) (hpath : r.Path = rt.template.literal ++ S)
    (hmeth : r.Method = rt.method) (hne : S.data ≠ []) (hslash : '/' ∉ S.data) :
    rt.Match r = some [(name, S)] := by
  have hpre : rt.template.literal.data.isPrefixOf (rt.template.literal.data ++ S.data) = true :=
    List.isPrefixOf_iff_prefix.mpr (List.prefix_append _ _)
  simp [Route.Match, Template.matchPath, hparam, hpath, hmeth, String.data_append, hpre, hne,
    hslash]

/-- The decision of the router on a fetch-by-id request: for a route rt of
`main` with a variable and a literal of the form /a/b/, and an id S that is
non-empty, free of slashes and neither `.` nor `..`, the request with the
method of rt and the path literal+S is dispatched to the handler of rt with
the variable bound to S. -/
theorem dispatch_param (rt : Route) (hrt : rt ∈ routes) (name : String)
    (hparam : rt.template.param = some name) (a b : List Char)
    (hlit : rt.template.literal.data = '/' :: (a ++ '/' :: (b ++ ['/'])))
    (ha : '/' ∉ a) (ha0 : a ≠ []) (ha1 : a ≠ ['.']) (ha2 : a ≠ ['.', '.'])
    (hb : '/' ∉ b) (hb0 : b ≠ []) (hb1 : b ≠ ['.']) (hb2 : b ≠ ['.', '.'])
    (S body : String) (vars : List (String × String))
    (hne : S ≠ "") (hslash : '/' ∉ S.data) (hdot : S ≠ ".") (hdotdot : S ≠ "..") :
    dispatch routes ⟨rt.method, rt.template.literal ++ S, body, vars⟩
      = .handler rt.handler [(name, S)] := by
  have hs0 : S.data ≠ [] := fun h => hne (String.ext h)
  have hs1 : S.data ≠ ['.'] := fun h => hdot (String.ext h)
  have hs2 : S.data ≠ ['.', '.'] := fun h => hdotdot (String.ext h)
  have hdata : (rt.template.literal ++ S).data = '/' :: (a ++ '/' :: (b ++ '/' :: S.data)) := by
    rw [String.data_append, hlit]
    simp
  have hclean : cleanPath (rt.template.literal ++ S).data = (rt.template.literal ++ S).data := by
    rw [hdata]
    exact cleanPath_three a b S.data ha ha0 ha1 ha2 hb hb0 hb1 hb2 hslash hs0 hs1 hs2
  have hmatch : rt.Match ⟨rt.method, rt.template.literal ++ S, body, vars⟩ = some [(name, S)] :=
    Route.Match_param rt name hparam _ S rfl rfl hs0 hslash
  have hfind := routerMatch_of_mem _ rt hrt _ hmatch
  unfold dispatch
  simp only [hclean, hfind, ne_eq, not_true_eq_false, if_false]

/-- C2, the claim as stated fails for some non-empty ids. With the id `a/b` the
path /v1/service_bindings/a/b matches no route, so no handler runs; with the
ids `..` and `.` the router answers with a redirect to the cleaned path and
again no handler runs. -/
theorem fetch_by_id_not_routed :
    "a/b" ≠ "" ∧
    dispatch routes ⟨"GET", "/v1/service_bindings/" ++ "a/b", "", []⟩ = .noMatch ∧
    serveHTTP routes ⟨"GET", "/v1/service_bindings/" ++ "a/b", "", []⟩ sampleEnv = none ∧
    dispatch routes ⟨"GET", "/v1/service_bindings/" ++ "..", "", []⟩ = .redirect "/v1" ∧
    dispatch routes ⟨"GET", "/v1/service_bindings/" ++ ".", "", []⟩
      = .redirect "/v1/service_bindings" := by
  have h1 : dispatch routes ⟨"GET", "/v1/service_bindings/" ++ "a/b", "", []⟩ = .noMatch := by
    decide
  refine ⟨by decide, h1, ?_, by decide, by decide⟩
  rw [serveHTTP, h1]

/-- C2, amended: for each of the four kinds and every id S that is non-empty,
free of slashes and neither `.` nor `..`, the request GET /v1/<collection>/S
is dispatched to the fetch-by-id handler of the kind with the variable id
bound to S, and the handler responds 200 with one record whose id is S; no
record of that id needs to exist. -/
theorem fetch_by_id_routed (S body : String) (vars : List (String × String)) (env : Env)
    (hne : S ≠ "") (hslash : '/' ∉ S.data) (hdot : S ≠ ".") (hdotdot : S ≠ "..") :
    (dispatch routes ⟨"GET", "/v1/service_bindings/" ++ S, body, vars⟩
        = .handler .getServiceBinding [("id", S)] ∧
      ∃ (v : ServiceBinding) (w : ResponseWriter) (env' : Env),
        serveHTTP routes ⟨"GET", "/v1/service_bindings/" ++ S, body, vars⟩ env = some (w, env') ∧
        Responds w 200 v.toJson ∧ v.ID = S) ∧
    (dispatch routes ⟨"GET", "/v1/service_offerings/" ++ S, body, vars⟩
        = .handler .getServiceOffering [("id", S)] ∧
      ∃ (v : ServiceOffering) (w : ResponseWriter) (env' : Env),
        serveHTTP routes ⟨"GET", "/v1/service_offerings/" ++ S, body, vars⟩ env = some (w, env') ∧
        Responds w 200 v.toJson ∧ v.ID = S) ∧
    (dispatch routes ⟨"GET", "/v1/service_plans/" ++ S, body, vars⟩
        = .handler .getServicePlan [("id", S)] ∧
      ∃ (v : ServicePlan) (w : ResponseWriter) (env' : Env),
        serveHTTP routes ⟨"GET", "/v1/service_plans/" ++ S, body, vars⟩ env = some (w, env') ∧
        Responds w 200 v.toJson ∧ v.ID = S) ∧
    (dispatch routes ⟨"GET", "/v1/service_instances/" ++ S, body, vars⟩
        = .handler .getServiceInstance [("id", S)] ∧
      ∃ (v : ServiceInstance) (w : ResponseWriter) (env' : Env),
        serveHTTP routes ⟨"GET", "/v1/service_instances/" ++ S, body, vars⟩ env = some (w, env') ∧
        Responds w 200 v.toJson ∧ v.ID = S) := by
  have hB := dispatch_param ⟨⟨"/v1/service_bindings/", some "id"⟩, .getServiceBinding, "GET"⟩
    (by decide) "id" rfl "v1".data "service_bindings".data rfl (by decide) (by decide) (by decide)
    (by decide) (by decide) (by decide) (by decide) (by decide) S body vars hne hslash hdot hdotdot
  have hO := dispatch_param ⟨⟨"/v1/service_offerings/", some "id"⟩, .getServiceOffering, "GET"⟩
    (by decide) "id" rfl "v1".data "service_offerings".data rfl (by decide) (by decide) (by decide)
    (by decide) (by decide) (by decide) (by decide) (by decide) S body vars hne hslash hdot hdotdot
  have hP := dispatch_param ⟨⟨"/v1/service_plans/", some "id"⟩, .getServicePlan, "GET"⟩
    (by decide) "id" rfl "v1".data "service_plans".data rfl (by decide) (by decide) (by decide)
    (by decide) (by decide) (by decide) (by decide) (by decide) S body vars hne hslash hdot hdotdot
  have hI := dispatch_param ⟨⟨"/v1/service_instances/", some "id"⟩, .getServiceInstance, "GET"⟩
    (by decide) "id" rfl "v1".data "service_instances".data rfl (by decide) (by decide) (by decide)
    (by decide) (by decide) (by decide) (by decide) (by decide) S body vars hne hslash hdot hdotdot
  simp only at hB hO hP hI
  refine ⟨⟨hB, ⟨S, env.uuids env.drawn, env.uuids (env.drawn + 1), env.uuids (env.drawn + 2),
      env.clock env.ticks⟩, _, _, by rw [serveHTTP, hB], ?_, rfl⟩,
    ⟨hO, ⟨S, "sample-service", "A sample service offering", env.clock env.ticks,
      env.clock (env.ticks + 1)⟩, _, _, by rw [serveHTTP, hO], ?_, rfl⟩,
    ⟨hP, ⟨S, "basic-plan", "Basic service plan", true, env.clock env.ticks,
      env.clock (env.ticks + 1)⟩, _, _, by rw [serveHTTP, hP], ?_, rfl⟩,
    ⟨hI, ⟨S, "test-instance", env.uuids env.drawn, env.uuids (env.drawn + 1),
      env.clock env.ticks, env.clock (env.ticks + 1)⟩, _, _, by rw [serveHTTP, hI], ?_, rfl⟩⟩ <;>
  simp [Responds, Handler.run, getServiceBinding, getServiceOffering, getServicePlan,
    getServiceInstance, muxVars, List.lookup, uuidNewString, timeNow, respondWithJSON_eq,
    jsonMarshal, ResponseWriter.status, ResponseWriter.body, ResponseWriter.fresh, http.StatusOK,
    Nat.add_assoc]

/-- The amended C2 at the id `never-created` of a plan. -/
theorem fetch_by_id_routed_witness :
    dispatch routes ⟨"GET", "/v1/service_plans/" ++ "never-created", "", []⟩
      = .handler .getServicePlan [("id", "never-created")] :=
  (fetch_by_id_routed "never-created" "" [] sampleEnv (by decide) (by decide) (by decide)
    (by decide)).2.2.1.1

end SmMock
